import Mathlib

/-!
Verification of the session/observability core of the Intelligent Business
Analytics Agent repository: a shallow embedding of `src/memory/session_manager.py`,
`src/memory/memory_bank.py`, `src/observability/tracer.py`,
`src/observability/metrics.py` and the request lifecycle of `src/coordinator.py`,
together with theorems settling the specification claims.

Modelling conventions:
* Wall-clock time (`time.time()`, `datetime.now()`, `pd.Timestamp.now()`) is a
  monotone tick counter (`Nat`) threaded through the state; every timestamp
  read consumes one tick, so successive reads are strictly increasing.
* Python dicts are insertion-ordered association lists; `dict[k] = v` keeps the
  position of an existing key and appends a fresh key at the end.
* External collaborators (LLM call, data loader, analyst and report agents,
  the file system used for persistence) are oracles supplied as parameters:
  a collaborator either returns a structured value or raises.
* Raising an exception is modelled with `Except`; state mutated before the
  raise is kept (Python semantics).
-/

namespace Analytics

/-! ## String helpers (Python `str.lower`, `in`, `endswith`) -/

/-- Tests whether `needle` occurs as a contiguous run at the head of `hay`. -/
def headMatch : List Char → List Char → Bool
  | [], _ => true
  | _ :: _, [] => false
  | a :: as, b :: bs => a == b && headMatch as bs

/-- Python `needle in hay` on strings, as lists of characters. -/
def subSearch (needle : List Char) : List Char → Bool
  | [] => headMatch needle []
  | hay@(_ :: rest) => headMatch needle hay || subSearch needle rest

/-- Python `needle in hay` for `String`. -/
def strContains (hay needle : String) : Bool :=
  subSearch needle.toList hay.toList

/-- Python `s.lower()` (ASCII-adequate model via `Char.toLower`). -/
def lowerStr (s : String) : String :=
  String.mk (s.toList.map Char.toLower)

/-- Python `s.endswith(suffix)`. -/
def strEndsWith (s suffix : String) : Bool :=
  headMatch suffix.toList.reverse s.toList.reverse

/-! ## Insertion-ordered dictionaries -/

/-- Python `d[k] = v`: replace in place if the key exists, else append. -/
def updAssoc {β : Type} (k : String) (v : β) : List (String × β) → List (String × β)
  | [] => [(k, v)]
  | (k', v') :: rest => if k' = k then (k, v) :: rest else (k', v') :: updAssoc k v rest

/-- Python `d.get(k, dflt)`. -/
def lookupD {β : Type} (l : List (String × β)) (k : String) (dflt : β) : β :=
  match l.find? (fun kv => kv.1 = k) with
  | some kv => kv.2
  | none => dflt

/-! ## MemoryBank (`src/memory/memory_bank.py`) -/

/-- The `MemoryEntry` dataclass: key, value, category, timestamp, metadata. -/
structure MemoryEntry where
  key : String
  value : String
  category : String
  timestamp : Nat
  metadata : List (String × String)
deriving DecidableEq, Repr

/-- Oracle for the file system seen by `_save_memories`.
`mkdirFails`: `storage_path.parent.mkdir(...)` raises (it sits OUTSIDE the
try/except in `_save_memories`, e.g. the parent exists as a regular file);
`writeFails`: the `json.dump`/`open` part raises (INSIDE the try/except,
logged and swallowed). -/
structure PersistEnv where
  mkdirFails : Bool
  writeFails : Bool
deriving DecidableEq, Repr

/-- In-memory state of `MemoryBank`: the insertion-ordered dict `self.memories`. -/
structure MemoryBank where
  memories : List (String × MemoryEntry)
deriving DecidableEq, Repr

/-- Model of `_save_memories`: `mkdir` first (an exception here propagates), then the
serialization and write wrapped in try/except (an exception here is printed
and swallowed). Returns `error` iff the call raises to its caller. -/
def MemoryBank.saveMemories (_b : MemoryBank) (env : PersistEnv) : Except String Unit :=
  if env.mkdirFails then Except.error "mkdir failed"
  else Except.ok ()   -- a writeFails exception is caught: `print` and fall through

/-- Model of `MemoryBank.store`: build the entry, upsert it into `self.memories`, then
`_save_memories`. The in-memory mutation happens before persistence, so the
returned bank holds the entry even when `_save_memories` raises. -/
def MemoryBank.store (b : MemoryBank) (env : PersistEnv) (key value : String)
    (category : String) (metadata : List (String × String)) (now : Nat) :
    Except String Unit × MemoryBank :=
  let entry : MemoryEntry := ⟨key, value, category, now, metadata⟩
  let b' : MemoryBank := ⟨updAssoc key entry b.memories⟩
  (b'.saveMemories env, b')

/-- Model of `MemoryBank.retrieve`. -/
def MemoryBank.retrieve (b : MemoryBank) (key : String) : Option String :=
  match b.memories.find? (fun kv => kv.1 = key) with
  | some kv => some kv.2.value
  | none => none

/-- Model of `MemoryBank.search`: linear scan over `self.memories.values()` with two
`continue` guards. Python truthiness: a `None` or empty-string argument
disables the corresponding filter. -/
def MemoryBank.search (b : MemoryBank) (category? : Option String)
    (query? : Option String) : List MemoryEntry :=
  (b.memories.map Prod.snd).filter (fun e =>
    !(match category? with
      | some c => c ≠ "" && e.category ≠ c
      | none => false) &&
    !(match query? with
      | some q => q ≠ "" && !(strContains (lowerStr e.value) (lowerStr q))
      | none => false))

/-- Second-resolution key format in `store_insight`
(`datetime.now().strftime('%Y%m%d_%H%M%S')`), abstracted as the tick value. -/
def fmtSecond (now : Nat) : String := toString now

/-- Model of `MemoryBank.store_insight`: auto-generated key under category `"insight"`.
Like `store`, it can raise only out of `_save_memories`'s `mkdir`. -/
def MemoryBank.storeInsight (b : MemoryBank) (env : PersistEnv) (insight : String)
    (metadata : List (String × String)) (now : Nat) :
    Except String Unit × MemoryBank × String :=
  let key := "insight_" ++ fmtSecond now
  let (flag, b') := b.store env key insight "insight" metadata (now + 1)
  (flag, b', key)

/-! ## Session / SessionManager (`src/memory/session_manager.py`) -/

/-- The `Message` dataclass. -/
structure Message where
  role : String
  content : String
  timestamp : Nat
  metadata : List (String × String)
deriving DecidableEq, Repr

/-- The `deque(maxlen=100)` bound on a session's message history. -/
def sessionCapacity : Nat := 100

/-- The `Session` dataclass; `messages` models the `deque(maxlen=100)`. -/
structure Session where
  id : String
  userId : String
  createdAt : Nat
  messages : List Message
  metadata : List (String × String)
deriving DecidableEq, Repr

/-- Model of `Session.add_message`: append; the deque silently drops the oldest entry
when the capacity is exceeded (`l.drop (len - 100)` is the identity while
`len ≤ 100`). -/
def Session.addMessage (s : Session) (role content : String)
    (metadata : List (String × String)) (now : Nat) : Session :=
  let msgs := s.messages ++ [⟨role, content, now, metadata⟩]
  { s with messages := msgs.drop (msgs.length - sessionCapacity) }

/-- Python `l[-m:]`: for `m = 0` this is `l[0:]`, i.e. the whole list. -/
def pySliceLast {α : Type} (m : Nat) (l : List α) : List α :=
  if m = 0 then l else l.drop (l.length - m)

/-- Model of `Session.get_context`: the most recent `max_messages` entries as
role/content pairs. -/
def Session.getContext (s : Session) (maxMessages : Nat) : List (String × String) :=
  (pySliceLast maxMessages s.messages).map (fun msg => (msg.role, msg.content))

/-- The `SessionManager` state: insertion-ordered dict of sessions plus the bound.
`nextStamp` is the tick source for `uuid4()` ids and `datetime.now()`
creation times (fresh ids, strictly increasing creation times). -/
structure SessionManager where
  sessions : List (String × Session)
  maxSessions : Nat
  nextStamp : Nat
deriving DecidableEq, Repr

/-- Model of `SessionManager._cleanup_old_sessions`: sort the dict items by creation
time ascending (Python's stable `sorted`) and delete the surplus oldest ids. -/
def SessionManager.cleanupOldSessions (m : SessionManager) : SessionManager :=
  if m.sessions.length ≤ m.maxSessions then m
  else
    let sortedSessions :=
      List.insertionSort (fun a b => a.2.createdAt ≤ b.2.createdAt) m.sessions
    let toRemove := m.sessions.length - m.maxSessions
    let removeIds := (sortedSessions.take toRemove).map Prod.fst
    { m with sessions := m.sessions.filter (fun kv => !(decide (kv.1 ∈ removeIds))) }

/-- Model of `SessionManager.create_session`: fresh id, empty history, register, then
clean up if the store now exceeds `max_sessions`. -/
def SessionManager.createSession (m : SessionManager) (userId : String)
    (metadata : List (String × String)) : Session × SessionManager :=
  let sessionId := "session-" ++ toString m.nextStamp
  let s : Session := ⟨sessionId, userId, m.nextStamp, [], metadata⟩
  let m' : SessionManager :=
    { m with sessions := updAssoc sessionId s m.sessions, nextStamp := m.nextStamp + 1 }
  if m'.sessions.length > m'.maxSessions then (s, m'.cleanupOldSessions) else (s, m')

/-- Model of `SessionManager.get_session`. -/
def SessionManager.getSession (m : SessionManager) (sessionId : String) : Option Session :=
  match m.sessions.find? (fun kv => kv.1 = sessionId) with
  | some kv => some kv.2
  | none => none

/-- Model of `SessionManager.update_session`: no-op when the id is unknown. -/
def SessionManager.updateSession (m : SessionManager) (sessionId role content : String)
    (metadata : List (String × String)) (now : Nat) : SessionManager :=
  match m.getSession sessionId with
  | none => m
  | some s =>
    { m with sessions := updAssoc sessionId (s.addMessage role content metadata now) m.sessions }

/-! ## MetricsCollector (`src/observability/metrics.py`) -/

/-- The `Metric` dataclass (values are rationals: counters embed, and timing
durations are tick differences). -/
structure Metric where
  name : String
  value : Rat
  timestamp : Nat
  tags : List (String × String)
deriving DecidableEq, Repr

/-- The `MetricsCollector` state: append-only log, `defaultdict(int)` counters,
`defaultdict(list)` timers. -/
structure MetricsCollector where
  enabled : Bool
  metrics : List Metric
  counters : List (String × Int)
  timers : List (String × List Rat)
deriving DecidableEq, Repr

/-- The `defaultdict(int)` update `counters[name] += value`: in-place for a known
name, appended for a fresh one. -/
def bumpCounter (l : List (String × Int)) (name : String) (value : Int) :
    List (String × Int) :=
  updAssoc name (lookupD l name 0 + value) l

/-- The `defaultdict(list)` update `timers[name].append(duration)`. -/
def pushTimer (l : List (String × List Rat)) (name : String) (duration : Rat) :
    List (String × List Rat) :=
  updAssoc name (lookupD l name [] ++ [duration]) l

/-- Model of `MetricsCollector.increment`: bump the counter and log the post-increment
cumulative value under `name.count`; no-op when disabled. -/
def MetricsCollector.increment (m : MetricsCollector) (name : String) (value : Int)
    (tags : List (String × String)) (now : Nat) : MetricsCollector × Nat :=
  if !m.enabled then (m, now)
  else
    let counters := bumpCounter m.counters name value
    ({ m with
        counters := counters,
        metrics := m.metrics ++
          [⟨name ++ ".count", ((lookupD counters name 0 : Int) : Rat), now, tags⟩] },
     now + 1)

/-- Model of `MetricsCollector.record_timing`: append and log under `name.duration`. -/
def MetricsCollector.recordTiming (m : MetricsCollector) (name : String) (duration : Rat)
    (tags : List (String × String)) (now : Nat) : MetricsCollector × Nat :=
  if !m.enabled then (m, now)
  else
    ({ m with
        timers := pushTimer m.timers name duration,
        metrics := m.metrics ++ [⟨name ++ ".duration", duration, now, tags⟩] },
     now + 1)

/-- Per-name timer statistics in `get_summary`. -/
structure TimerStats where
  count : Nat
  minV : Rat
  maxV : Rat
  avg : Rat
  total : Rat
deriving DecidableEq, Repr

/-- Statistics `{count, min, max, avg, total}` of a nonempty duration list. -/
def timerStats (x : Rat) (xs : List Rat) : TimerStats :=
  let all := x :: xs
  let total := all.foldl (· + ·) 0
  ⟨all.length, xs.foldl min x, xs.foldl max x, total / (all.length : Rat), total⟩

/-- The structure returned by `MetricsCollector.get_summary` when enabled. -/
structure MetricsSummary where
  counters : List (String × Int)
  timers : List (String × TimerStats)
  timestamp : Nat
deriving DecidableEq, Repr

/-- Model of `MetricsCollector.get_summary`: `{}` (modelled `none`) when disabled;
otherwise counters, statistics of every nonempty timer list, and a fresh
`datetime.now()` timestamp. Computed from the raw state, no mutation. -/
def MetricsCollector.getSummary (m : MetricsCollector) (now : Nat) :
    Option MetricsSummary × Nat :=
  if !m.enabled then (none, now)
  else
    (some ⟨m.counters,
      m.timers.filterMap (fun kv =>
        match kv.2 with
        | [] => none
        | x :: xs => some (kv.1, timerStats x xs)),
      now⟩,
     now + 1)

/-! ## Tracer (`src/observability/tracer.py`)

Python's `TraceSpan` tree is mutated through references held in the
`active_spans` stack. The pure model keeps completed spans in the tree and
represents each still-open span as a `SpanFrame` on the stack (outermost
first, exactly `active_spans` order); `Tracer.toSpans` rebuilds the tree
Python would show, with `endTime = none` on the open rightmost spine. -/

/-- The `TraceSpan` dataclass: name, start, optional end, metadata, children. -/
inductive TraceSpan where
  | mk : String → Nat → Option Nat → List (String × String) → List TraceSpan → TraceSpan
deriving Repr

def TraceSpan.name : TraceSpan → String
  | .mk n _ _ _ _ => n

def TraceSpan.startTime : TraceSpan → Nat
  | .mk _ s _ _ _ => s

def TraceSpan.endTime : TraceSpan → Option Nat
  | .mk _ _ e _ _ => e

def TraceSpan.children : TraceSpan → List TraceSpan
  | .mk _ _ _ _ cs => cs

def TraceSpan.mdata : TraceSpan → List (String × String)
  | .mk _ _ _ md _ => md

/-- A still-open span: its completed children accumulate in order. -/
structure SpanFrame where
  name : String
  startTime : Nat
  metadata : List (String × String)
  children : List TraceSpan
deriving Repr

/-- Identity of an open span as Python's stack sees it. -/
def SpanFrame.key (f : SpanFrame) : String × Nat := (f.name, f.startTime)

/-- The `Tracer` state: completed root spans and the open-span stack
(`active_spans`, outermost first). -/
structure Tracer where
  enabled : Bool
  spans : List TraceSpan
  activeSpans : List SpanFrame
deriving Repr

def Tracer.init (enabled : Bool) : Tracer := ⟨enabled, [], []⟩

/-- Rebuild the open rightmost spine: each frame is an open span whose
children are its completed children followed by its open child, if any. -/
def viewStack : List SpanFrame → List TraceSpan
  | [] => []
  | f :: fs => [.mk f.name f.startTime none f.metadata (f.children ++ viewStack fs)]

/-- The root span list exactly as Python's `tracer.spans` shows it (open
spans included, appended at open time). -/
def Tracer.toSpans (t : Tracer) : List TraceSpan :=
  t.spans ++ viewStack t.activeSpans

/-- Entry half of `Tracer.span`: start a span at `now`; it appears as the last
child of the innermost open span (or as a new root) and is pushed. No-op when
disabled (no time read either). -/
def Tracer.openSpan (t : Tracer) (name : String) (metadata : List (String × String))
    (now : Nat) : Tracer × Nat :=
  if !t.enabled then (t, now)
  else ({ t with activeSpans := t.activeSpans ++ [⟨name, now, metadata, []⟩] }, now + 1)

/-- Exit half of `Tracer.span` (the `finally:` block): set `end_time = now` on
the innermost open span and pop it; runs on success and on error alike. -/
def Tracer.closeSpan (t : Tracer) (now : Nat) : Tracer × Nat :=
  if !t.enabled then (t, now)
  else
    match t.activeSpans.getLast? with
    | none => (t, now)   -- unreachable under the context-manager discipline
    | some f =>
      match t.activeSpans.dropLast.getLast? with
      | none =>
        ({ t with
            spans := t.spans ++ [TraceSpan.mk f.name f.startTime (some now) f.metadata f.children],
            activeSpans := [] }, now + 1)
      | some g =>
        ({ t with
            activeSpans := t.activeSpans.dropLast.dropLast ++
              [{ g with children := g.children ++
                [TraceSpan.mk f.name f.startTime (some now) f.metadata f.children] }] },
         now + 1)

/-- Serialized span node of `get_trace_summary`: name, derived duration,
metadata, children. `duration` is `None` while open, and also when
`end_time` is falsy (`end_time = 0`), mirroring `if self.end_time:`. -/
inductive TraceView where
  | mk : String → Option Int → List (String × String) → List TraceView → TraceView
deriving Repr

def TraceView.name : TraceView → String
  | .mk n _ _ _ => n

def TraceView.duration : TraceView → Option Int
  | .mk _ d _ _ => d

def TraceView.metadata : TraceView → List (String × String)
  | .mk _ _ md _ => md

/-- Model of `summarize_span`. -/
def summarizeSpan : TraceSpan → TraceView
  | .mk n s e? md cs =>
    .mk n
      (match e? with
       | some e => if e = 0 then none else some ((e : Int) - (s : Int))
       | none => none)
      md (cs.attach.map (fun c => summarizeSpan c.1))
termination_by sp => sizeOf sp
decreasing_by
  simp only [TraceSpan.mk.sizeOf_spec]
  have := List.sizeOf_lt_of_mem c.2
  omega

/-- The structure returned by `get_trace_summary` when enabled. -/
structure TraceSummary where
  spans : List TraceView
  totalSpans : Nat
  timestamp : Nat
deriving Repr

/-- Model of `Tracer.get_trace_summary`: `{}` (modelled `none`) when disabled;
otherwise the serialized root forest, its length, and a fresh timestamp.
Reads the state, never mutates it. -/
def Tracer.getTraceSummary (t : Tracer) (now : Nat) : Option TraceSummary × Nat :=
  if !t.enabled then (none, now)
  else (some ⟨(t.toSpans).map summarizeSpan, t.toSpans.length, now⟩, now + 1)

/-! ## Nested scoped `span` acquisitions

A `Prog` is an arbitrary single-threaded computation that wraps sub-steps in
`with tracer.span(...)` blocks; an `act` is an external operation that either
succeeds or raises. `Prog.run` interprets it against a tracer: a raise
propagates outward (skipping the rest of a `seq`), but every `span` closes in
its `finally:` block. -/

inductive Prog where
  | act (fails : Bool)
  | seq (p q : Prog)
  | span (name : String) (metadata : List (String × String)) (body : Prog)

/-- Run a program: returns the tracer, the clock, and whether it completed
without raising. -/
def Prog.run : Prog → Tracer → Nat → Tracer × Nat × Bool
  | .act fails, t, now => (t, now, !fails)
  | .seq p q, t, now =>
    match p.run t now with
    | (t1, n1, true) => q.run t1 n1
    | (t1, n1, false) => (t1, n1, false)
  | .span name md body, t, now =>
    let (t1, n1) := t.openSpan name md now
    match body.run t1 n1 with
    | (t2, n2, ok) =>
      let (t3, n3) := t2.closeSpan n2
      (t3, n3, ok)

/-- Open a sequence of spans without closing them (reaching a mid-request
tracer state with a nonempty open-span stack). -/
def openAll : List (String × List (String × String)) → Tracer × Nat → Tracer × Nat
  | [], tn => tn
  | (n, md) :: rest, (t, now) => openAll rest (t.openSpan n md now)

/-! ## Coordinator (`src/coordinator.py`) -/

/-- The dict returned by the analysis collaborator
(`DataAnalystAgent.analyze_data`): the coordinator pattern-matches only on
`success`, `insights`, `statistics`. -/
structure AnalysisResult where
  success : Bool
  insights : Option String
  statistics : Option String
deriving DecidableEq, Repr

/-- The `report` sub-dict of the report collaborator's result. -/
structure ReportInner where
  filepath : Option String
  format : Option String
deriving DecidableEq, Repr

/-- The dict returned by the report collaborator
(`ReportGeneratorAgent.generate_report`). -/
structure ReportResult where
  success : Bool
  report : Option ReportInner
deriving DecidableEq, Repr

/-- An external collaborator call either returns a value or raises. -/
inductive CallOutcome (α : Type) where
  | ok (res : α)
  | raises (msg : String)
deriving DecidableEq, Repr

/-- Oracle fixing the behaviour of every external collaborator touched by one
`analyze` request. `planFails`: `model.generate_content` raises in
`_plan_workflow`; `loadData`: the composite outcome of the loader tool inside
`_load_data` (`none` = any failure, all caught there); `persist`: the file
system seen by `MemoryBank._save_memories`. -/
structure Collab where
  planFails : Bool
  loadData : Option Nat
  analysisOutcome : CallOutcome AnalysisResult
  reportOutcome : CallOutcome ReportResult
  persist : PersistEnv
deriving DecidableEq, Repr

/-- The workflow plan dict. -/
structure Workflow where
  needsData : Bool
  performAnalysis : Bool
  generateReport : Bool
  reportTitle : String
deriving DecidableEq, Repr

/-- The `analysis` section of the compiled response. -/
structure AnalysisSection where
  insights : Option String
  statistics : Option String
deriving DecidableEq, Repr

/-- The `report` section of the compiled response. -/
structure ReportSection where
  filepath : Option String
  format : Option String
deriving DecidableEq, Repr

/-- The response dict of `CoordinatorAgent.analyze`. A `none` field models an
absent key; `trace`/`metrics` hold `some none` when the key is present but the
collector was disabled (Python `{}`). -/
structure Response where
  success : Bool
  error : Option String
  query : Option String
  sessionId : Option String
  workflow : Option Workflow
  analysis : Option AnalysisSection
  report : Option ReportSection
  trace : Option (Option TraceSummary)
  metrics : Option (Option MetricsSummary)

/-- A response carrying only `success` and `error` (the early failure dicts). -/
def failResponse (msg : String) : Response :=
  ⟨false, some msg, none, none, none, none, none, none, none⟩

/-- Abstraction of Python's `str(response)` appended to the session history
(the exact rendering is irrelevant to the lifecycle). -/
def responseStr (r : Response) : String :=
  "response(success=" ++ toString r.success ++ ")"

/-- Mutable state shared by one `CoordinatorAgent` and its collaborators. -/
structure AgentState where
  tracer : Tracer
  metrics : MetricsCollector
  sessionMgr : SessionManager
  sessionId : String
  bank : MemoryBank
  now : Nat

/-- Model of `CoordinatorAgent._plan_workflow`: the LLM call only gates which branch
runs; both produce a deterministic keyword plan. On failure the fixed default
plan is used (fail-open). -/
def planWorkflow (c : Collab) (query : String) (dataFile : Option String) : Workflow :=
  if c.planFails then
    ⟨dataFile.isSome, true, true, "Business Analytics Report"⟩
  else
    ⟨dataFile.isSome || strContains (lowerStr query) "data",
     true,
     strContains (lowerStr query) "report" || strContains (lowerStr query) "analyze",
     "Business Analytics Report"⟩

/-- Python truthiness of the optional `data_file` argument. -/
def truthyStr : Option String → Bool
  | some s => s ≠ ""
  | none => false

/-- Model of `CoordinatorAgent._load_data` under its `data_loading` span: dispatch on
the filename extension, delegate to the loader oracle, catch everything and
return `None` on any failure (a `None` path raises `AttributeError` on
`.endswith`, also caught). -/
def loadDataStep (c : Collab) (tr : Tracer) (now : Nat) (filePath : Option String) :
    Option Nat × Tracer × Nat :=
  let (tr1, n1) := tr.openSpan "data_loading" [("file", filePath.getD "None")] now
  let res : Option Nat :=
    match filePath with
    | none => none
    | some p =>
      if strEndsWith p ".csv" || strEndsWith p ".json" then c.loadData else none
  let (tr2, n2) := tr1.closeSpan n1
  (res, tr2, n2)

/-- Outcome of the `try:` block of `analyze`: a returned response dict, or an
exception propagating to the `except` handler. -/
inductive TryOut where
  | ret (r : Response)
  | raised (msg : String)

/-- Step 3 of `analyze`: delegate to the analysis collaborator (an exception
propagates), and on a successful result carrying `insights`, store the insight
into the memory bank (whose `mkdir` may raise). Returns `none` for the `{}`
placeholder when analysis was skipped. -/
def analysisStep (c : Collab) (st : AgentState) (query : String) (workflow : Workflow) :
    Except String (Option AnalysisResult) × AgentState :=
  if workflow.performAnalysis then
    match c.analysisOutcome with
    | .raises msg => (.error msg, st)
    | .ok res =>
      if res.success && res.insights.isSome then
        let (flag, bank', _key) := st.bank.storeInsight c.persist (res.insights.getD "")
          [("query", query), ("session_id", st.sessionId)] st.now
        let st' := { st with bank := bank', now := st.now + 2 }
        match flag with
        | .error msg => (.error msg, st')
        | .ok _ => (.ok (some res), st')
      else (.ok (some res), st)
  else (.ok none, st)

/-- Step 4 of `analyze`: delegate to the report collaborator (an exception
propagates). -/
def reportStep (c : Collab) (st : AgentState) (workflow : Workflow) :
    Except String (Option ReportResult) × AgentState :=
  if workflow.generateReport then
    match c.reportOutcome with
    | .raises msg => (.error msg, st)
    | .ok res => (.ok (some res), st)
  else (.ok none, st)

/-- Model of `CoordinatorAgent._compile_response`: `success: True`, echo of the query,
session and workflow; `analysis`/`report` sections only for truthy
sub-results ( `{}` placeholders and failed sub-results are omitted); then the
current trace and metrics summaries. -/
def compileResponse (st : AgentState) (query : String)
    (analysisResults : Option AnalysisResult) (reportResults : Option ReportResult)
    (workflow : Workflow) : Response × AgentState :=
  let base : Response :=
    ⟨true, none, some query, some st.sessionId, some workflow, none, none, none, none⟩
  let r1 :=
    match analysisResults with
    | some a => if a.success then { base with analysis := some ⟨a.insights, a.statistics⟩ } else base
    | none => base
  let r2 :=
    match reportResults with
    | some r =>
      if r.success then
        { r1 with report := some ⟨(r.report.map ReportInner.filepath).getD none,
                                  (r.report.map ReportInner.format).getD none⟩ }
      else r1
    | none => r1
  let (ts, n1) := st.tracer.getTraceSummary st.now
  let (ms, n2) := st.metrics.getSummary n1
  ({ r2 with trace := some ts, metrics := some ms }, { st with now := n2 })

/-- Steps 3-5 of the `try:` body (analysis, report, compile, session update
and the success-path metrics), after the data-loading stage. -/
def analyzeSteps (c : Collab) (s2 : AgentState) (query : String) (workflow : Workflow)
    (startTime : Nat) : TryOut × AgentState :=
  -- step 3: analysis (+ memory store)
  match analysisStep c s2 query workflow with
  | (.error msg, s3) => (.raised msg, s3)
  | (.ok analysisResults, s3) =>
    -- step 4: report
    match reportStep c s3 workflow with
    | (.error msg, s4) => (.raised msg, s4)
    | (.ok reportResults, s4) =>
      -- step 5: compile
      let (response, s5) := compileResponse s4 query analysisResults reportResults workflow
      -- update session with the response
      let sm2 := s5.sessionMgr.updateSession s5.sessionId "assistant" (responseStr response) [] s5.now
      let s6 := { s5 with sessionMgr := sm2, now := s5.now + 1 }
      -- record metrics: duration then success counter
      let duration : Rat := ((s6.now : Int) - (startTime : Int) : Int)
      let (mc1, n1) := s6.metrics.recordTiming "coordinator.analysis_duration" duration [] (s6.now + 1)
      let s7 := { s6 with metrics := mc1, now := n1 }
      let (mc2, n2) := s7.metrics.increment "coordinator.analysis_success" 1 [] s7.now
      let s8 := { s7 with metrics := mc2, now := n2 }
      (.ret response, s8)

/-- The `try:` body of `analyze` (steps 1-5 plus the success-path metrics). -/
def analyzeTry (c : Collab) (st : AgentState) (query : String) (dataFile : Option String)
    (startTime : Nat) : TryOut × AgentState :=
  -- update session with the user query
  let sm1 := st.sessionMgr.updateSession st.sessionId "user" query [] st.now
  let s1 := { st with sessionMgr := sm1, now := st.now + 1 }
  -- step 1: plan
  let workflow := planWorkflow c query dataFile
  -- step 2: load data if needed (failure short-circuits the request)
  if truthyStr dataFile || workflow.needsData then
    let effectivePath := if truthyStr dataFile then dataFile else none
    let (data?, tr2, n2) := loadDataStep c s1.tracer s1.now effectivePath
    let s2 := { s1 with tracer := tr2, now := n2 }
    match data? with
    | none => (.ret (failResponse "Failed to load data"), s2)
    | some _d => analyzeSteps c s2 query workflow startTime
  else analyzeSteps c s1 query workflow startTime

/-- Model of `CoordinatorAgent.analyze`: the whole request under the
`coordinator.analyze` span, with the request counter at entry, the
`try/except` conversion of any exception into `{success: False, error}` with
the error counter, and the unconditional span close at exit. -/
def CoordinatorAgent.analyze (c : Collab) (st : AgentState) (query : String)
    (dataFile : Option String) : Response × AgentState :=
  let (tr1, n1) := st.tracer.openSpan "coordinator.analyze" [("query", query)] st.now
  let s1 := { st with tracer := tr1, now := n1 }
  let (mc1, n2) := s1.metrics.increment "coordinator.analysis_requests" 1 [] s1.now
  let s2 := { s1 with metrics := mc1, now := n2 }
  let startTime := s2.now          -- pd.Timestamp.now()
  let s3 := { s2 with now := s2.now + 1 }
  let (out, s4) := analyzeTry c s3 query dataFile startTime
  let (response, s5) :=
    match out with
    | .ret r => (r, s4)
    | .raised msg =>
      let (mcE, nE) := s4.metrics.increment "coordinator.analysis_errors" 1 [] s4.now
      (failResponse msg, { s4 with metrics := mcE, now := nE })
  let (trC, nC) := s5.tracer.closeSpan s5.now
  (response, { s5 with tracer := trC, now := nC })

/-- Model of `CoordinatorAgent.__init__` (observability and state wiring only): global
enabled tracer and metrics collector, a fresh session manager with one created
session, an empty memory bank (no backing file), and the initialization
counter. -/
def CoordinatorAgent.init (userId : String) : AgentState :=
  let tracer := Tracer.init true
  let metrics : MetricsCollector := ⟨true, [], [], []⟩
  let (session, sm) := (SessionManager.mk [] 1000 0).createSession userId []
  let (mc1, n1) := metrics.increment "coordinator.initializations" 1 [] 1
  ⟨tracer, mc1, sm, session.id, ⟨[]⟩, n1⟩

/-! ## Predicates and auxiliary definitions used by the claim statements -/

/-- Sequentially add role/content/time triples to a session. -/
def addSeq (s : Session) (ms : List (String × String × Nat)) : Session :=
  ms.foldl (fun acc m => acc.addMessage m.1 m.2.1 [] m.2.2) s

/-- The `Message` produced by one `add_message` call. -/
def mkMsg (m : String × String × Nat) : Message := ⟨m.1, m.2.1, m.2.2, []⟩

/-- The filter the `search` contract describes, with Python truthiness made
explicit: an absent or empty argument filters nothing. -/
def passFilter (category? query? : Option String) (e : MemoryEntry) : Bool :=
  (match category? with
   | some c => if c = "" then true else e.category = c
   | none => true) &&
  (match query? with
   | some q => if q = "" then true else strContains (lowerStr e.value) (lowerStr q)
   | none => true)

/-- Current cumulative counter value (`defaultdict(int)` read). -/
def counterVal (m : MetricsCollector) (name : String) : Int :=
  lookupD m.counters name 0

/-- Number of recorded timing samples for a name. -/
def timerCount (m : MetricsCollector) (name : String) : Nat :=
  (lookupD m.timers name []).length

/-- Well-formedness of a `SessionManager` state, maintained by the API:
creation times strictly increase along the insertion order and stay below the
next stamp, keys are distinct, and the next generated id is fresh. -/
def SessionManager.wf (m : SessionManager) : Prop :=
  List.Chain' (fun a b => a.2.createdAt < b.2.createdAt) m.sessions ∧
  (∀ kv ∈ m.sessions, kv.2.createdAt < m.nextStamp) ∧
  (m.sessions.map Prod.fst).Nodup ∧
  ("session-" ++ toString m.nextStamp) ∉ m.sessions.map Prod.fst

/-- Every recorded span of a forest is closed. -/
def closedF : List TraceSpan → Bool
  | [] => true
  | (.mk _ _ e? _ cs) :: rest => e?.isSome && closedF cs && closedF rest

/-- Every closed span of a forest has `end_time ≥ start_time`. -/
def wellTimedF : List TraceSpan → Bool
  | [] => true
  | (.mk _ s e? _ cs) :: rest =>
    (match e? with | none => true | some e => decide (s ≤ e)) &&
    wellTimedF cs && wellTimedF rest

/-- At every level of a forest, sibling spans appear with strictly increasing
start times — i.e. in the order they were opened. -/
def openOrderedF : List TraceSpan → Bool
  | [] => true
  | (.mk _ s _ _ cs) :: rest =>
    openOrderedF cs && openOrderedF rest &&
    (match rest with
     | [] => true
     | (.mk _ s' _ _ _) :: _ => decide (s < s'))

/-- Only the top level of a forest is closed (no recursion). -/
def topClosed (l : List TraceSpan) : Bool :=
  l.all (fun sp => sp.endTime.isSome)

/-- Lower bound on the start of the first span of a forest. -/
def startLB (lo : Nat) : List TraceSpan → Prop
  | [] => True
  | (.mk _ s _ _ _) :: _ => lo ≤ s

/-- The spans of a forest occupy consecutive disjoint time intervals inside
`[lo, hi)`: each is closed, starts after the previous one ends, and contains
its children. This is the shape every completed part of a tracer state has. -/
inductive Chain : Nat → List TraceSpan → Nat → Prop where
  | nil (lo : Nat) : Chain lo [] lo
  | cons {lo s e m hi : Nat} {n : String} {md : List (String × String)}
      {cs rest : List TraceSpan} :
      lo ≤ s → Chain (s + 1) cs m → m ≤ e → Chain (e + 1) rest hi →
      Chain lo (TraceSpan.mk n s (some e) md cs :: rest) hi

/-- The open-span stack is well-nested in time: each frame opens after the
frontier of the enclosing level, its completed children fit after its start,
and the innermost frontier is at most `now`. -/
def stackOK (now : Nat) : Nat → List SpanFrame → Prop
  | lo, [] => lo ≤ now
  | lo, f :: fs =>
    lo ≤ f.startTime ∧ ∃ m, Chain (f.startTime + 1) f.children m ∧ stackOK now m fs

/-- Tracer state invariant. -/
def Tracer.WF (t : Tracer) (now : Nat) : Prop :=
  ∃ m, Chain 0 t.spans m ∧ stackOK now m t.activeSpans

/-- Append a span as the last child of the innermost open span of a forest
(the rightmost open spine), or at top level when every span is closed. -/
def appendInner (x : TraceSpan) : List TraceSpan → List TraceSpan
  | [] => [x]
  | [TraceSpan.mk n s none md cs] => [TraceSpan.mk n s none md (appendInner x cs)]
  | [TraceSpan.mk n s (some e) md cs] => [TraceSpan.mk n s (some e) md cs, x]
  | sp :: rest => sp :: appendInner x rest
termination_by l => sizeOf l
decreasing_by
  · simp only [List.cons.sizeOf_spec, List.nil.sizeOf_spec, TraceSpan.mk.sizeOf_spec]
    omega
  · simp only [List.cons.sizeOf_spec]
    omega

/-- Root identities (name, start time) of the Python `tracer.spans` list. -/
def rootKeysOf (t : Tracer) : List (String × Nat) :=
  t.toSpans.map (fun sp => (sp.name, sp.startTime))

/-- The trace summary carried by a response (defaulting when absent/disabled). -/
def extractTrace (r : Response) : TraceSummary :=
  (r.trace.getD none).getD ⟨[], 0, 0⟩

/-! ### Concrete fixtures for counterexamples and witnesses -/

/-- A fresh session with no messages. -/
def blankSession : Session := ⟨"s0", "u0", 0, [], []⟩

/-- 101 sequential `add_message` inputs. -/
def msgs101 : List (String × String × Nat) :=
  (List.range 101).map (fun i => ("user", "m", i))

/-- A session holding one message. -/
def c8Session : Session := ⟨"s8", "u8", 0, [⟨"user", "hello", 1, []⟩], []⟩

/-- A session holding three messages. -/
def c8Session3 : Session :=
  ⟨"s8b", "u8", 0, [⟨"user", "a", 1, []⟩, ⟨"assistant", "b", 2, []⟩, ⟨"user", "c", 3, []⟩], []⟩

/-- A bank holding one insight entry. -/
def c7Entry : MemoryEntry := ⟨"k1", "sales up", "insight", 0, []⟩

def c7Bank : MemoryBank := ⟨[("k1", c7Entry)]⟩

/-- A second bank used for the search witness. -/
def c7Entry2 : MemoryEntry := ⟨"k2", "likes sales", "preference", 1, []⟩

def c7Bank2 : MemoryBank := ⟨[("k1", c7Entry), ("k2", c7Entry2)]⟩

/-- A file system where directory creation fails. -/
def c9Env : PersistEnv := ⟨true, false⟩

/-- A collector with one counter recorded. -/
def c6Collector : MetricsCollector :=
  ⟨true, [], [("coordinator.analysis_requests", 5)], []⟩

/-- A manager whose bound is zero: creation evicts the new session at once. -/
def c3Manager : SessionManager := ⟨[], 0, 0⟩

/-- A full manager (bound 1) holding one older session. -/
def c3Manager1 : SessionManager :=
  ⟨[("session-0", ⟨"session-0", "u", 0, [], []⟩)], 1, 1⟩

/-- Collaborators for the C1 scenario: the analysis collaborator raises, the
report collaborator succeeds with `report.filepath = "x.md"`. -/
def c1Collab : Collab :=
  ⟨false, none, .raises "boom",
   .ok ⟨true, some ⟨some "x.md", some "markdown"⟩⟩, ⟨false, false⟩⟩

/-- Collaborators for the C2 data-load-failure scenario. -/
def c2Collab : Collab :=
  ⟨false, none, .ok ⟨true, some "i", some "st"⟩,
   .ok ⟨true, some ⟨some "x.md", some "markdown"⟩⟩, ⟨false, false⟩⟩

/-- Benign collaborators reaching the compile step (no data needed). -/
def okCollab : Collab :=
  ⟨false, some 0, .ok ⟨false, none, none⟩, .ok ⟨true, some ⟨some "x.md", some "markdown"⟩⟩,
   ⟨false, false⟩⟩

/-- First and second `analyze` runs sharing one coordinator state. -/
def c10Run1 : Response × AgentState :=
  CoordinatorAgent.analyze okCollab (CoordinatorAgent.init "user-1") "first question" none

def c10Run2 : Response × AgentState :=
  CoordinatorAgent.analyze okCollab c10Run1.2 "second question" none

/-! ## Helper lemmas -/

theorem updAssoc_of_not_mem {β : Type} (k : String) (v : β) (l : List (String × β))
    (h : k ∉ l.map Prod.fst) : updAssoc k v l = l ++ [(k, v)] := by
  induction l with
  | nil => rfl
  | cons p rest ih =>
    simp only [List.map_cons, List.mem_cons] at h
    push_neg at h
    obtain ⟨h1, h2⟩ := h
    simp only [updAssoc, List.cons_append]
    rw [if_neg (fun hc => h1 hc.symm), ih h2]

theorem find?_updAssoc_self {β : Type} (k : String) (v : β) (l : List (String × β)) :
    (updAssoc k v l).find? (fun kv => kv.1 = k) = some (k, v) := by
  induction l with
  | nil => simp [updAssoc]
  | cons p rest ih =>
    by_cases h : p.1 = k
    · simp only [updAssoc]
      rw [if_pos h]
      simp
    · simp only [updAssoc]
      rw [if_neg h]
      rw [List.find?_cons_of_neg _ (by simpa using h)]
      exact ih

theorem lookupD_updAssoc_self {β : Type} (k : String) (v : β) (l : List (String × β))
    (d : β) : lookupD (updAssoc k v l) k d = v := by
  unfold lookupD
  rw [find?_updAssoc_self]

theorem find?_updAssoc_other {β : Type} (k k' : String) (v : β) (l : List (String × β))
    (h : k' ≠ k) :
    (updAssoc k v l).find? (fun kv => kv.1 = k') = l.find? (fun kv => kv.1 = k') := by
  induction l with
  | nil => simp [updAssoc, List.find?, h.symm]
  | cons p rest ih =>
    by_cases hp : p.1 = k
    · simp only [updAssoc]
      rw [if_pos hp]
      by_cases hpk : p.1 = k'
      · exact absurd (hpk.symm.trans hp) h
      · rw [List.find?_cons_of_neg _ (by simpa using fun he => h he.symm),
          List.find?_cons_of_neg _ (by simpa using hpk)]
    · simp only [updAssoc]
      rw [if_neg hp]
      by_cases hpk : p.1 = k'
      · rw [List.find?_cons_of_pos _ (by simpa using hpk),
          List.find?_cons_of_pos _ (by simpa using hpk)]
      · rw [List.find?_cons_of_neg _ (by simpa using hpk),
          List.find?_cons_of_neg _ (by simpa using hpk)]
        exact ih

theorem lookupD_updAssoc_other {β : Type} (k k' : String) (v : β) (l : List (String × β))
    (d : β) (h : k' ≠ k) : lookupD (updAssoc k v l) k' d = lookupD l k' d := by
  unfold lookupD
  rw [find?_updAssoc_other _ _ _ _ h]

theorem counterVal_increment_self (m : MetricsCollector) (name : String) (v : Int)
    (tags : List (String × String)) (now : Nat) (h : m.enabled = true) :
    counterVal (m.increment name v tags now).1 name = counterVal m name + v := by
  unfold MetricsCollector.increment
  rw [h]
  simp only [Bool.not_true, cond_false]
  unfold counterVal bumpCounter
  simp [lookupD_updAssoc_self, Int.add_comm]

theorem counterVal_increment_other (m : MetricsCollector) (name other : String) (v : Int)
    (tags : List (String × String)) (now : Nat) (h : other ≠ name) :
    counterVal (m.increment name v tags now).1 other = counterVal m other := by
  unfold MetricsCollector.increment
  cases hE : m.enabled
  · simp
  · simp only [Bool.not_true, cond_false]
    unfold counterVal bumpCounter
    simp [lookupD_updAssoc_other _ _ _ _ _ h]

theorem timers_increment (m : MetricsCollector) (name : String) (v : Int)
    (tags : List (String × String)) (now : Nat) :
    (m.increment name v tags now).1.timers = m.timers := by
  unfold MetricsCollector.increment
  cases hE : m.enabled <;> simp [hE]

theorem counters_recordTiming (m : MetricsCollector) (name : String) (d : Rat)
    (tags : List (String × String)) (now : Nat) :
    (m.recordTiming name d tags now).1.counters = m.counters := by
  unfold MetricsCollector.recordTiming
  cases hE : m.enabled <;> simp [hE]

theorem timerCount_recordTiming_self (m : MetricsCollector) (name : String) (d : Rat)
    (tags : List (String × String)) (now : Nat) (h : m.enabled = true) :
    timerCount (m.recordTiming name d tags now).1 name = timerCount m name + 1 := by
  unfold MetricsCollector.recordTiming
  rw [h]
  simp only [Bool.not_true, cond_false]
  unfold timerCount pushTimer
  simp [lookupD_updAssoc_self]

theorem enabled_increment (m : MetricsCollector) (name : String) (v : Int)
    (tags : List (String × String)) (now : Nat) :
    (m.increment name v tags now).1.enabled = m.enabled := by
  unfold MetricsCollector.increment
  cases hE : m.enabled <;> simp [hE]

theorem enabled_recordTiming (m : MetricsCollector) (name : String) (d : Rat)
    (tags : List (String × String)) (now : Nat) :
    (m.recordTiming name d tags now).1.enabled = m.enabled := by
  unfold MetricsCollector.recordTiming
  cases hE : m.enabled <;> simp [hE]

/-! ## C7: MemoryBank.search -/

/-- C7 (counterexample): the claim demands an exact category match for
*every provided* category string, but Python truthiness disables the filter
for the empty string: `search(category="")` returns the `"insight"` entry even
though its category differs from the provided `""`. -/
theorem memory_search_counterexample :
    c7Bank.search (some "") none = [c7Entry] ∧ c7Entry.category ≠ "" := by
  constructor
  · rfl
  · decide

/-- C7 (amended): `search` returns exactly the stored entries passing the
category equality filter and the case-insensitive substring filter, ANDed,
where an omitted or *empty* argument filters nothing; the result keeps the
insertion order of the backing dict, and omitting both returns everything. -/
theorem memory_search_characterization (b : MemoryBank)
    (category? query? : Option String) :
    b.search category? query? = (b.memories.map Prod.snd).filter (passFilter category? query?) ∧
    b.search none none = b.memories.map Prod.snd := by
  constructor
  · unfold MemoryBank.search
    apply List.filter_congr
    intro e _
    unfold passFilter
    rcases category? with _ | c
    · rcases query? with _ | q
      · simp
      · by_cases hq : q = "" <;>
          cases hs : strContains (lowerStr e.value) (lowerStr q) <;>
          simp [hq, hs]
    · rcases query? with _ | q
      · by_cases hc : c = "" <;> by_cases he : e.category = c <;> simp [hc, he]
      · by_cases hc : c = "" <;> by_cases he : e.category = c <;>
          by_cases hq : q = "" <;>
          cases hs : strContains (lowerStr e.value) (lowerStr q) <;>
          simp [hc, he, hq, hs]
  · unfold MemoryBank.search
    simp

/-! ## C9: MemoryBank.store persistence failure -/

/-- C9 (counterexample): a persistence failure can raise out of `store`: the
`mkdir` call in `_save_memories` sits outside its try/except, so a directory
creation failure propagates to the caller (while the in-memory entry stands). -/
theorem memory_store_counterexample :
    ((MemoryBank.mk []).store c9Env "k" "v" "general" [] 5).1 =
      Except.error "mkdir failed" ∧
    ((MemoryBank.mk []).store c9Env "k" "v" "general" [] 5).2.retrieve "k" = some "v" := by
  constructor <;> rfl

/-- C9 (amended): the in-memory upsert always stands (the mutation precedes
persistence), and `store` returns without raising exactly when directory
creation succeeds — a failure of the serialization/write step itself is
logged and swallowed (`writeFails` does not affect the outcome). -/
theorem memory_store_persistence (b : MemoryBank) (env : PersistEnv)
    (k v cat : String) (md : List (String × String)) (now : Nat) :
    ((b.store env k v cat md now).2).retrieve k = some v ∧
    ((b.store env k v cat md now).1 = Except.ok () ↔ env.mkdirFails = false) := by
  constructor
  · unfold MemoryBank.store MemoryBank.retrieve
    simp only
    rw [find?_updAssoc_self]
  · unfold MemoryBank.store MemoryBank.saveMemories
    cases h : env.mkdirFails <;> simp

/-! ## C6: get_summary determinism -/

/-- C6 (counterexample): `get_summary` embeds a fresh `datetime.now()`
timestamp, so two calls at different instants return different structures
even with no intervening mutation — "every field" equality fails. -/
theorem metrics_summary_counterexample :
    (c6Collector.getSummary 0).1 ≠ (c6Collector.getSummary 1).1 := by
  decide

/-- C6 (amended): `get_summary` is computed purely from the collector state:
two calls with no intervening mutation agree on the counters and on every
timer statistic; only the embedded `timestamp` field tracks the call instant
(and the summary is present exactly when the collector is enabled). -/
theorem metrics_summary_deterministic (m : MetricsCollector) (t1 t2 : Nat) :
    ((m.getSummary t1).1).map MetricsSummary.counters =
      ((m.getSummary t2).1).map MetricsSummary.counters ∧
    ((m.getSummary t1).1).map MetricsSummary.timers =
      ((m.getSummary t2).1).map MetricsSummary.timers ∧
    (((m.getSummary t1).1).isSome ↔ m.enabled = true) := by
  unfold MetricsCollector.getSummary
  cases hE : m.enabled <;> simp [hE]

/-! ## C8: Session.get_context -/

/-- C8 (counterexample): the claim promises `min(max_messages, length)` most
recent messages for every non-negative bound, but `list(...)[-0:]` is the
whole list: `get_context(0)` on a one-message session returns that message,
not zero messages. -/
theorem session_context_counterexample :
    c8Session.getContext 0 = [("user", "hello")] ∧
    (c8Session.getContext 0).length ≠ min 0 c8Session.messages.length := by
  constructor
  · rfl
  · decide

/-- C8 (amended): for every *positive* `max_messages` the context is exactly
the `min(max_messages, length)` most recent messages, in chronological order,
reduced to role/content pairs; `max_messages = 0` returns the entire history
(Python `[-0:]`). -/
theorem session_context_window (s : Session) (m : Nat) :
    (0 < m →
      s.getContext m =
        (s.messages.drop (s.messages.length - m)).map (fun msg => (msg.role, msg.content)) ∧
      (s.getContext m).length = min m s.messages.length) ∧
    s.getContext 0 = s.messages.map (fun msg => (msg.role, msg.content)) := by
  constructor
  · intro hm
    constructor
    · unfold Session.getContext pySliceLast
      rw [if_neg (Nat.pos_iff_ne_zero.mp hm)]
    · unfold Session.getContext pySliceLast
      rw [if_neg (Nat.pos_iff_ne_zero.mp hm)]
      rw [List.length_map, List.length_drop]
      omega
  · unfold Session.getContext pySliceLast
    simp

/-- C8 witness: the amended window property evaluated on a three-message
session with `max_messages = 2`. -/
theorem session_context_window_witness :
    (0 < 2 ∧
      c8Session3.getContext 2 = [("assistant", "b"), ("user", "c")] ∧
      (c8Session3.getContext 2).length = min 2 c8Session3.messages.length) ∧
    c8Session3.getContext 0 = [("user", "a"), ("assistant", "b"), ("user", "c")] := by
  have h := session_context_window c8Session3 2
  refine ⟨⟨by decide, ?_, (h.1 (by decide)).2⟩, ?_⟩
  · rw [(h.1 (by decide)).1]
    rfl
  · rw [h.2]
    rfl

/-! ## C4: bounded session history -/

theorem lastN_idem_append {α : Type} (k : Nat) (l r : List α) :
    let lastN := fun (x : List α) => x.drop (x.length - k)
    lastN (lastN l ++ r) = lastN (l ++ r) := by
  intro lastN
  show (l.drop (l.length - k) ++ r).drop _ = _
  have h1 : l.drop (l.length - k) ++ r = (l ++ r).drop (l.length - k) := by
    rw [List.drop_append_eq_append_drop]
    have : l.length - k - l.length = 0 := by omega
    rw [this, List.drop_zero]
  rw [h1, List.drop_drop]
  congr 1
  simp only [List.length_append, List.length_drop]
  omega

theorem addMessage_messages (s : Session) (p : String × String × Nat) :
    (s.addMessage p.1 p.2.1 [] p.2.2).messages =
      (s.messages ++ [mkMsg p]).drop ((s.messages ++ [mkMsg p]).length - sessionCapacity) := by
  unfold Session.addMessage mkMsg
  simp

theorem addSeq_messages (s : Session) (ms : List (String × String × Nat))
    (h : s.messages.length ≤ sessionCapacity) :
    (addSeq s ms).messages =
      (s.messages ++ ms.map mkMsg).drop
        ((s.messages ++ ms.map mkMsg).length - sessionCapacity) := by
  induction ms generalizing s with
  | nil =>
    simp only [addSeq, List.foldl_nil, List.map_nil, List.append_nil]
    have : s.messages.length - sessionCapacity = 0 := by omega
    rw [this, List.drop_zero]
  | cons p rest ih =>
    have hstep := addMessage_messages s p
    have hlen : (s.addMessage p.1 p.2.1 [] p.2.2).messages.length ≤ sessionCapacity := by
      rw [hstep, List.length_drop]
      omega
    have hrec := ih (s.addMessage p.1 p.2.1 [] p.2.2) hlen
    simp only [addSeq, List.foldl_cons] at hrec ⊢
    rw [hrec, hstep]
    have hidem := lastN_idem_append sessionCapacity (s.messages ++ [mkMsg p]) (rest.map mkMsg)
    simp only at hidem
    rw [hidem, List.append_assoc]
    rfl

/-- C4: after any `N > 100` sequence of `add_message` calls on a session whose
history respects the bound, the session holds exactly the 100 most recently
added messages, in their original relative order; every call is total
(eviction is silent by construction — `add_message` is a total function). -/
theorem session_bounded_history (s : Session) (ms : List (String × String × Nat))
    (hs : s.messages.length ≤ sessionCapacity) (hlen : sessionCapacity < ms.length) :
    (addSeq s ms).messages = (ms.map mkMsg).drop (ms.length - sessionCapacity) ∧
    (addSeq s ms).messages.length = sessionCapacity := by
  have h := addSeq_messages s ms hs
  rw [List.length_append, List.length_map] at h
  constructor
  · rw [h, List.drop_append_eq_append_drop]
    have h1 : s.messages.length + ms.length - sessionCapacity - s.messages.length =
        ms.length - sessionCapacity := by omega
    have h2 : s.messages.drop (s.messages.length + ms.length - sessionCapacity) = [] :=
      List.drop_eq_nil_of_le (by omega)
    rw [h1, h2, List.nil_append]
  · rw [h, List.length_drop, List.length_append, List.length_map]
    omega

/-- C4 witness: 101 additions to a fresh session leave exactly the last 100,
in order. -/
theorem session_bounded_history_witness :
    (blankSession.messages.length ≤ sessionCapacity ∧ sessionCapacity < msgs101.length) ∧
    (addSeq blankSession msgs101).messages =
      (msgs101.map mkMsg).drop (msgs101.length - sessionCapacity) ∧
    (addSeq blankSession msgs101).messages.length = sessionCapacity := by
  refine ⟨⟨by decide, by decide⟩, session_bounded_history blankSession msgs101 (by decide) (by decide)⟩

/-! ## C3: SessionManager eviction -/

theorem filter_split_append {β : Type} (p : String × β → Bool) (l1 l2 : List (String × β))
    (h1 : ∀ x ∈ l1, p x = false) (h2 : ∀ x ∈ l2, p x = true) :
    (l1 ++ l2).filter p = l2 := by
  rw [List.filter_append]
  rw [List.filter_eq_nil_iff.mpr (fun a ha => by simp [h1 a ha]),
    List.filter_eq_self.mpr h2, List.nil_append]

theorem filter_drop_of_nodup {β : Type} (l : List (String × β)) (k : Nat)
    (h : (l.map Prod.fst).Nodup) :
    l.filter (fun kv => !(decide (kv.1 ∈ (l.take k).map Prod.fst))) = l.drop k := by
  have hsplit : ((l.take k).map Prod.fst ++ (l.drop k).map Prod.fst).Nodup := by
    rw [← List.map_append, List.take_append_drop]
    exact h
  rw [List.nodup_append] at hsplit
  obtain ⟨_, _, hdisj⟩ := hsplit
  have key := filter_split_append (fun kv => !(decide (kv.1 ∈ (l.take k).map Prod.fst)))
    (l.take k) (l.drop k)
    (fun x hx => by
      have hm : x.1 ∈ (l.take k).map Prod.fst := List.mem_map_of_mem Prod.fst hx
      rw [List.map_take] at hm
      simp [hm])
    (fun x hx => by
      have hmem : x.1 ∈ (l.drop k).map Prod.fst := List.mem_map_of_mem Prod.fst hx
      have hnot : x.1 ∉ (l.take k).map Prod.fst := fun hc => hdisj hc hmem
      rw [List.map_take] at hnot
      simp [hnot])
  rw [List.take_append_drop] at key
  exact key

theorem sorted_of_wf_append (m : SessionManager) (s : Session) (sid : String)
    (hchain : List.Chain' (fun a b => a.2.createdAt < b.2.createdAt) m.sessions)
    (hlt : ∀ kv ∈ m.sessions, kv.2.createdAt < s.createdAt) :
    (m.sessions ++ [(sid, s)]).Sorted
      (fun (a b : String × Session) => a.2.createdAt ≤ b.2.createdAt) := by
  haveI : IsTrans (String × Session) (fun a b => a.2.createdAt < b.2.createdAt) :=
    ⟨fun _ _ _ h1 h2 => Nat.lt_trans h1 h2⟩
  have hchain' : List.Chain' (fun (a b : String × Session) => a.2.createdAt < b.2.createdAt)
      (m.sessions ++ [(sid, s)]) := by
    apply List.Chain'.append hchain (List.chain'_singleton _)
    intro x hx y hy
    simp only [List.head?_cons, Option.mem_def, Option.some.injEq] at hy
    subst hy
    exact hlt x (List.mem_of_mem_getLast? hx)
  have hpair := (List.chain'_iff_pairwise
    (R := fun (a b : String × Session) => a.2.createdAt < b.2.createdAt)).mp hchain'
  exact hpair.imp (fun hab => Nat.le_of_lt hab)

/-- C3 (counterexample): with `max_sessions = 0` the freshly created session
is itself the surplus oldest entry and is evicted immediately — the claim's
"the newly created session is never evicted" fails. -/
theorem session_eviction_counterexample :
    ((c3Manager.createSession "u" []).2).sessions = [] ∧
    (c3Manager.createSession "u" []).1.id = "session-0" := by
  constructor <;> rfl

/-- C3 (amended): on a well-formed store with `max_sessions ≥ 1`, after any
`create_session` the store holds at most `max_sessions` sessions, the
resulting store is exactly the old-plus-new list with the surplus
oldest-by-creation sessions removed from the front, and the newly created
session is retained. -/
theorem session_eviction (m : SessionManager) (u : String)
    (md : List (String × String)) (hwf : m.wf) (hmax : 1 ≤ m.maxSessions) :
    ((m.createSession u md).2).sessions.length ≤ m.maxSessions ∧
    ((m.createSession u md).2).sessions =
      (m.sessions ++ [((m.createSession u md).1.id, (m.createSession u md).1)]).drop
        ((m.sessions.length + 1) - m.maxSessions) ∧
    ((m.createSession u md).1.id, (m.createSession u md).1) ∈
      ((m.createSession u md).2).sessions := by
  obtain ⟨hchain, hlt, hnodup, hfresh⟩ := hwf
  set sid := "session-" ++ toString m.nextStamp with hsid
  set snew : Session := ⟨sid, u, m.nextStamp, [], md⟩ with hsnew
  have hupd : updAssoc sid snew m.sessions = m.sessions ++ [(sid, snew)] :=
    updAssoc_of_not_mem _ _ _ hfresh
  have hfst : (m.createSession u md).1 = snew := by
    unfold SessionManager.createSession
    simp only [← hsid, ← hsnew]
    split <;> rfl
  have hlen : (m.sessions ++ [(sid, snew)]).length = m.sessions.length + 1 := by
    simp
  have hnodup' : ((m.sessions ++ [(sid, snew)]).map Prod.fst).Nodup := by
    rw [List.map_append]
    simp only [List.map_cons, List.map_nil]
    rw [List.nodup_append]
    refine ⟨hnodup, List.nodup_singleton _, ?_⟩
    intro x hx hy
    simp only [List.mem_singleton] at hy
    subst hy
    exact hfresh hx
  have hsorted := sorted_of_wf_append m snew sid hchain
    (fun kv hkv => hlt kv hkv)
  have hsnd : ((m.createSession u md).2).sessions =
      (m.sessions ++ [(sid, snew)]).drop ((m.sessions.length + 1) - m.maxSessions) := by
    unfold SessionManager.createSession
    simp only [← hsid, ← hsnew, hupd]
    by_cases hover : (m.sessions ++ [(sid, snew)]).length > m.maxSessions
    · rw [if_pos (by simpa using hover)]
      unfold SessionManager.cleanupOldSessions
      simp only [hlen] at hover ⊢
      rw [if_neg (by omega)]
      have hss : List.insertionSort
          (fun (a b : String × Session) => a.2.createdAt ≤ b.2.createdAt)
          (m.sessions ++ [(sid, snew)]) = m.sessions ++ [(sid, snew)] :=
        List.Sorted.insertionSort_eq hsorted
      simp only [hss]
      exact filter_drop_of_nodup _ _ hnodup'
    · rw [if_neg (by simpa using hover)]
      simp only [hlen] at hover
      have : m.sessions.length + 1 - m.maxSessions = 0 := by omega
      rw [this, List.drop_zero]
  refine ⟨?_, ?_, ?_⟩
  · rw [hsnd, List.length_drop, hlen]
    omega
  · rw [hsnd, hfst]
  · rw [hsnd, hfst]
    have hk : (m.sessions.length + 1) - m.maxSessions ≤ m.sessions.length := by omega
    rw [List.drop_append_of_le_length hk]
    exact List.mem_append_right _ (List.mem_singleton.mpr rfl)

/-- C3 witness: a full well-formed store (bound 1) evicts exactly the old
session and keeps the new one. -/
theorem session_eviction_witness :
    (c3Manager1.wf ∧ 1 ≤ c3Manager1.maxSessions) ∧
    ((c3Manager1.createSession "u2" []).2).sessions.length ≤ c3Manager1.maxSessions ∧
    ((c3Manager1.createSession "u2" []).2).sessions =
      (c3Manager1.sessions ++
        [((c3Manager1.createSession "u2" []).1.id, (c3Manager1.createSession "u2" []).1)]).drop
        ((c3Manager1.sessions.length + 1) - c3Manager1.maxSessions) ∧
    ((c3Manager1.createSession "u2" []).1.id, (c3Manager1.createSession "u2" []).1) ∈
      ((c3Manager1.createSession "u2" []).2).sessions := by
  have hwf : c3Manager1.wf := by
    refine ⟨List.chain'_singleton _, by decide, by decide, by decide⟩
  exact ⟨⟨hwf, by decide⟩, session_eviction c3Manager1 "u2" [] hwf (by decide)⟩

/-! ## Tracer infrastructure: the `Chain` invariant -/

theorem Chain.le {lo hi : Nat} {l : List TraceSpan} (h : Chain lo l hi) : lo ≤ hi := by
  induction h with
  | nil => omega
  | cons h1 _ h2 _ ih1 ih2 => omega

theorem Chain.append {lo m hi : Nat} {l1 l2 : List TraceSpan}
    (h1 : Chain lo l1 m) (h2 : Chain m l2 hi) : Chain lo (l1 ++ l2) hi := by
  induction l1 generalizing lo with
  | nil => cases h1; simpa using h2
  | cons sp rest ih =>
    cases h1 with
    | cons hls hc hme hr => exact Chain.cons hls hc hme (ih hr)

theorem Chain.sound {lo hi : Nat} {l : List TraceSpan} (h : Chain lo l hi) :
    closedF l = true ∧ wellTimedF l = true ∧ openOrderedF l = true ∧ startLB lo l := by
  induction h with
  | nil => simp [closedF, wellTimedF, openOrderedF, startLB]
  | @cons lo s e m hi n md cs rest hls hc hme hr ihc ihr =>
    obtain ⟨hcl1, hwt1, hoo1, _⟩ := ihc
    obtain ⟨hcl2, hwt2, hoo2, hlb2⟩ := ihr
    have hse : s ≤ e := by
      have := hc.le
      omega
    refine ⟨?_, ?_, ?_, ?_⟩
    · simp [closedF, hcl1, hcl2]
    · simp [wellTimedF, hcl1, hwt1, hwt2, hse]
    · cases rest with
      | nil =>
        rw [openOrderedF.eq_def]
        simp [hoo1, hoo2]
      | cons sp2 rest2 =>
        cases sp2 with
        | mk n2 s2 e2 md2 cs2 =>
          rw [openOrderedF.eq_def]
          simp only [startLB] at hlb2
          simp [hoo1, hoo2]
          omega
    · exact hls

theorem Chain.topClosed {lo hi : Nat} {l : List TraceSpan} (h : Chain lo l hi) :
    Analytics.topClosed l = true := by
  induction h with
  | nil => simp [Analytics.topClosed]
  | cons _ _ _ _ ih1 ih2 =>
    simp only [Analytics.topClosed, List.all_cons, TraceSpan.endTime, Option.isSome_some,
      Bool.true_and]
    simpa [Analytics.topClosed] using ih2

/-! ## Tracer infrastructure: stack invariants -/

theorem stackOK_push {now lo : Nat} {fs : List SpanFrame} (h : stackOK now lo fs)
    (n : String) (md : List (String × String)) :
    stackOK (now + 1) lo (fs ++ [⟨n, now, md, []⟩]) := by
  induction fs generalizing lo with
  | nil =>
    simp only [stackOK] at h
    exact ⟨h, now + 1, Chain.nil _, Nat.le_refl _⟩
  | cons f fs ih =>
    obtain ⟨h1, m, hc, hs⟩ := h
    exact ⟨h1, m, hc, ih hs⟩

theorem stackOK_frames_closed {now lo : Nat} {fs : List SpanFrame} (h : stackOK now lo fs) :
    ∀ f ∈ fs, topClosed f.children = true := by
  induction fs generalizing lo with
  | nil => intro f hf; cases hf
  | cons g gs ih =>
    obtain ⟨_, m, hc, hs⟩ := h
    intro f hf
    rcases List.mem_cons.mp hf with hfg | hfgs
    · subst hfg; exact hc.topClosed
    · exact ih hs f hfgs

theorem stackOK_close : ∀ (fs : List SpanFrame) (f : SpanFrame) (lo now : Nat),
    stackOK now lo (fs ++ [f]) →
    (fs = [] →
      Chain lo [TraceSpan.mk f.name f.startTime (some now) f.metadata f.children] (now + 1)) ∧
    (∀ gs g, fs = gs ++ [g] →
      stackOK (now + 1) lo (gs ++ [⟨g.name, g.startTime, g.metadata,
        g.children ++ [TraceSpan.mk f.name f.startTime (some now) f.metadata f.children]⟩])) := by
  intro fs
  induction fs with
  | nil =>
    intro f lo now h
    obtain ⟨h1, m, hc, hm⟩ := h
    simp only [stackOK] at hm
    refine ⟨fun _ => Chain.cons h1 hc hm (Chain.nil _), ?_⟩
    intro gs g hgs
    exact absurd hgs.symm (List.append_ne_nil_of_right_ne_nil gs (by simp))
  | cons f0 fs' ih =>
    intro f lo now h
    obtain ⟨h1, m, hc, hs⟩ := h
    constructor
    · intro habs; cases habs
    · intro gs g hgs
      cases gs with
      | nil =>
        simp only [List.nil_append] at hgs
        obtain ⟨hfg, hfs⟩ := List.cons.inj hgs
        subst hfg hfs
        simp only [stackOK] at hs ⊢
        obtain ⟨hmf, k, hck, hkn⟩ := hs
        refine ⟨h1, now + 1, ?_, Nat.le_refl _⟩
        exact hc.append (Chain.cons hmf hck hkn (Chain.nil _))
      | cons g0 gs' =>
        obtain ⟨hfg0, hfs'⟩ := List.cons.inj hgs
        subst hfg0
        have hrec := (ih f m now (hfs' ▸ hs)).2 gs' g hfs'
        exact ⟨h1, m, hc, by simpa [hfs'] using hrec⟩

theorem Tracer.WF.openSpanWF {t : Tracer} {now : Nat} (h : t.WF now)
    (n : String) (md : List (String × String)) :
    (t.openSpan n md now).1.WF (t.openSpan n md now).2 := by
  unfold Tracer.openSpan
  cases hE : t.enabled with
  | false => simpa using h
  | true =>
    obtain ⟨m, hc, hs⟩ := h
    exact ⟨m, hc, stackOK_push hs n md⟩

theorem Tracer.WF.closeSpanWF {t : Tracer} {now : Nat} (h : t.WF now) :
    (t.closeSpan now).1.WF (t.closeSpan now).2 := by
  unfold Tracer.closeSpan
  cases hE : t.enabled with
  | false => simpa using h
  | true =>
    simp only [Bool.not_true, cond_false]
    cases hl : t.activeSpans.getLast? with
    | none => simpa using h
    | some f =>
      have hne : t.activeSpans ≠ [] := by
        intro h0
        rw [h0] at hl
        simp at hl
      have hf : t.activeSpans.getLast hne = f := by
        rw [List.getLast?_eq_getLast _ hne] at hl
        exact Option.some.inj hl
      have hact : t.activeSpans.dropLast ++ [f] = t.activeSpans := by
        rw [← hf]
        exact List.dropLast_append_getLast hne
      obtain ⟨m, hc, hs⟩ := h
      rw [← hact] at hs
      have hclose := stackOK_close t.activeSpans.dropLast f m now hs
      cases hl2 : t.activeSpans.dropLast.getLast? with
      | none =>
        have hrest : t.activeSpans.dropLast = [] := by
          cases hdl : t.activeSpans.dropLast with
          | nil => rfl
          | cons a as =>
            rw [hdl] at hl2
            rw [List.getLast?_eq_getLast _ (by simp)] at hl2
            cases hl2
        have hchain := hclose.1 hrest
        exact ⟨now + 1, hc.append hchain, by simp [stackOK]⟩
      | some g =>
        have hne2 : t.activeSpans.dropLast ≠ [] := by
          intro h0
          rw [h0] at hl2
          simp at hl2
        have hg : t.activeSpans.dropLast.getLast hne2 = g := by
          rw [List.getLast?_eq_getLast _ hne2] at hl2
          exact Option.some.inj hl2
        have hact2 : t.activeSpans.dropLast.dropLast ++ [g] = t.activeSpans.dropLast := by
          rw [← hg]
          exact List.dropLast_append_getLast hne2
        have hrec := hclose.2 t.activeSpans.dropLast.dropLast g hact2.symm
        exact ⟨m, hc, hrec⟩

/-! ## Tracer infrastructure: run-level lemmas -/

theorem Tracer.openSpan_enabled (t : Tracer) (n : String) (md : List (String × String))
    (now : Nat) : (t.openSpan n md now).1.enabled = t.enabled := by
  unfold Tracer.openSpan
  cases hE : t.enabled <;> simp [hE]

theorem Tracer.closeSpan_enabled (t : Tracer) (now : Nat) :
    (t.closeSpan now).1.enabled = t.enabled := by
  unfold Tracer.closeSpan
  by_cases hE : t.enabled = true
  · rw [if_neg (by simp [hE])]
    cases t.activeSpans.getLast? with
    | none => rfl
    | some f =>
      cases t.activeSpans.dropLast.getLast? with
      | none => rfl
      | some g => rfl
  · rw [if_pos (by simp [Bool.not_eq_true] at hE ⊢; exact hE)]

theorem Tracer.closeSpan_key_map (t : Tracer) (now : Nat) (hE : t.enabled = true) :
    ((t.closeSpan now).1).activeSpans.map SpanFrame.key =
      (t.activeSpans.map SpanFrame.key).dropLast := by
  unfold Tracer.closeSpan
  simp only [hE, Bool.not_true, cond_false]
  cases hl : t.activeSpans.getLast? with
  | none =>
    have : t.activeSpans = [] := by
      cases h0 : t.activeSpans with
      | nil => rfl
      | cons a as =>
        rw [h0] at hl
        simp [List.getLast?_eq_getLast] at hl
    simp [this]
  | some f =>
    have hne : t.activeSpans ≠ [] := by
      intro h0; rw [h0] at hl; simp at hl
    have hf : t.activeSpans.getLast hne = f := by
      rw [List.getLast?_eq_getLast _ hne] at hl
      exact Option.some.inj hl
    have hact : t.activeSpans.dropLast ++ [f] = t.activeSpans := by
      rw [← hf]; exact List.dropLast_append_getLast hne
    cases hl2 : t.activeSpans.dropLast.getLast? with
    | none =>
      have hrest : t.activeSpans.dropLast = [] := by
        cases hdl : t.activeSpans.dropLast with
        | nil => rfl
        | cons a as =>
          rw [hdl] at hl2
          have : (a :: as) ≠ [] := by simp
          rw [List.getLast?_eq_getLast _ this] at hl2
          cases hl2
      simp only [List.map_nil]
      rw [← hact, hrest]
      simp
    | some g =>
      have hne2 : t.activeSpans.dropLast ≠ [] := by
        intro h0; rw [h0] at hl2; simp at hl2
      have hg : t.activeSpans.dropLast.getLast hne2 = g := by
        rw [List.getLast?_eq_getLast _ hne2] at hl2
        exact Option.some.inj hl2
      have hact2 : t.activeSpans.dropLast.dropLast ++ [g] = t.activeSpans.dropLast := by
        rw [← hg]; exact List.dropLast_append_getLast hne2
      simp only [List.map_append, List.map_cons, List.map_nil]
      rw [← hact, List.dropLast_concat, ← hact2]
      simp [SpanFrame.key]

theorem Tracer.openSpan_key_map (t : Tracer) (n : String) (md : List (String × String))
    (now : Nat) :
    ((t.openSpan n md now).1).activeSpans.map SpanFrame.key =
      t.activeSpans.map SpanFrame.key ++
        (if t.enabled = true then [(n, now)] else []) := by
  unfold Tracer.openSpan
  cases hE : t.enabled <;> simp [hE, SpanFrame.key]

theorem Prog.run_key_map : ∀ (p : Prog) (t : Tracer) (now : Nat),
    ((p.run t now).1).activeSpans.map SpanFrame.key = t.activeSpans.map SpanFrame.key ∧
    ((p.run t now).1).enabled = t.enabled := by
  intro p
  induction p with
  | act fails => intro t now; exact ⟨rfl, rfl⟩
  | seq p q ihp ihq =>
    intro t now
    simp only [Prog.run]
    rcases hp : p.run t now with ⟨t1, n1, ok⟩
    have h1 := ihp t now
    rw [hp] at h1
    cases ok with
    | true =>
      have h2 := ihq t1 n1
      exact ⟨h2.1.trans h1.1, h2.2.trans h1.2⟩
    | false => exact h1
  | span name md body ih =>
    intro t now
    simp only [Prog.run]
    rcases ho : t.openSpan name md now with ⟨t1, n1⟩
    have hopen : t1.activeSpans.map SpanFrame.key =
        t.activeSpans.map SpanFrame.key ++
          (if t.enabled = true then [(name, now)] else []) := by
      have := Tracer.openSpan_key_map t name md now
      rw [ho] at this
      exact this
    have hopenE : t1.enabled = t.enabled := by
      have := Tracer.openSpan_enabled t name md now
      rw [ho] at this
      exact this
    rcases hb : body.run t1 n1 with ⟨t2, n2, ok⟩
    have hbody := ih t1 n1
    rw [hb] at hbody
    have hb1 : t2.activeSpans.map SpanFrame.key = t1.activeSpans.map SpanFrame.key := hbody.1
    have hb2 : t2.enabled = t1.enabled := hbody.2
    rcases hc : t2.closeSpan n2 with ⟨t3, n3⟩
    have hcE : t3.enabled = t2.enabled := by
      have := Tracer.closeSpan_enabled t2 n2
      rw [hc] at this
      exact this
    refine ⟨?_, ?_⟩
    · show t3.activeSpans.map SpanFrame.key = _
      cases hE : t.enabled with
      | true =>
        have hE2 : t2.enabled = true := by rw [hb2, hopenE, hE]
        have hclose : t3.activeSpans.map SpanFrame.key =
            (t2.activeSpans.map SpanFrame.key).dropLast := by
          have := Tracer.closeSpan_key_map t2 n2 hE2
          rw [hc] at this
          exact this
        rw [hclose, hb1, hopen]
        simp [hE]
      | false =>
        have hE2 : t2.enabled = false := by rw [hb2, hopenE, hE]
        have hclose : t3 = t2 := by
          unfold Tracer.closeSpan at hc
          rw [hE2] at hc
          simp at hc
          exact hc.1.symm
        rw [hclose, hb1, hopen]
        simp [hE]
    · show t3.enabled = _
      rw [hcE, hb2, hopenE]

theorem Prog.run_wf : ∀ (p : Prog) (t : Tracer) (now : Nat), t.WF now →
    ((p.run t now).1).WF (p.run t now).2.1 := by
  intro p
  induction p with
  | act fails => intro t now h; exact h
  | seq p q ihp ihq =>
    intro t now h
    simp only [Prog.run]
    rcases hp : p.run t now with ⟨t1, n1, ok⟩
    have h1 := ihp t now h
    rw [hp] at h1
    cases ok with
    | true => exact ihq t1 n1 h1
    | false => exact h1
  | span name md body ih =>
    intro t now h
    simp only [Prog.run]
    rcases ho : t.openSpan name md now with ⟨t1, n1⟩
    have h1 : t1.WF n1 := by
      have := h.openSpanWF name md
      rw [ho] at this
      exact this
    rcases hb : body.run t1 n1 with ⟨t2, n2, ok⟩
    have h2 : t2.WF n2 := by
      have := ih t1 n1 h1
      rw [hb] at this
      exact this
    rcases hc : t2.closeSpan n2 with ⟨t3, n3⟩
    have h3 : t3.WF n3 := by
      have := h2.closeSpanWF
      rw [hc] at this
      exact this
    exact h3

theorem openAll_wf : ∀ (names : List (String × List (String × String)))
    (t : Tracer) (now : Nat), t.WF now →
    ((openAll names (t, now)).1).WF (openAll names (t, now)).2 := by
  intro names
  induction names with
  | nil => intro t now h; exact h
  | cons p rest ih =>
    intro t now h
    simp only [openAll]
    rcases ho : t.openSpan p.1 p.2 now with ⟨t1, n1⟩
    have h1 : t1.WF n1 := by
      have := h.openSpanWF p.1 p.2
      rw [ho] at this
      exact this
    exact ih t1 n1 h1

theorem openAll_enabled : ∀ (names : List (String × List (String × String)))
    (t : Tracer) (now : Nat),
    ((openAll names (t, now)).1).enabled = t.enabled := by
  intro names
  induction names with
  | nil => intro t now; rfl
  | cons p rest ih =>
    intro t now
    simp only [openAll]
    rcases ho : t.openSpan p.1 p.2 now with ⟨t1, n1⟩
    have hE : t1.enabled = t.enabled := by
      have := Tracer.openSpan_enabled t p.1 p.2 now
      rw [ho] at this
      exact this
    rw [ih t1 n1, hE]

theorem Tracer.init_wf (enabled : Bool) : (Tracer.init enabled).WF 0 :=
  ⟨0, Chain.nil 0, by simp [Tracer.init, stackOK]⟩

/-! ## Tracer infrastructure: the append-at-innermost view -/

theorem appendInner_cons_cons (x a b : TraceSpan) (rest : List TraceSpan) :
    appendInner x (a :: b :: rest) = a :: appendInner x (b :: rest) := by
  simp [appendInner]

theorem appendInner_all_closed (x : TraceSpan) (l : List TraceSpan)
    (h : topClosed l = true) : appendInner x l = l ++ [x] := by
  induction l with
  | nil => simp [appendInner]
  | cons sp rest ih =>
    have hsp : sp.endTime.isSome = true := by
      simp only [topClosed, List.all_cons, Bool.and_eq_true] at h
      exact h.1
    have hrest : topClosed rest = true := by
      simp only [topClosed, List.all_cons, Bool.and_eq_true] at h
      exact h.2
    cases rest with
    | nil =>
      cases sp with
      | mk n s e? md cs =>
        cases e? with
        | none => simp [TraceSpan.endTime] at hsp
        | some e => simp [appendInner]
    | cons b bs =>
      rw [appendInner_cons_cons, ih hrest]
      simp

theorem appendInner_concat_open (x : TraceSpan) (l : List TraceSpan) (n : String)
    (s : Nat) (md : List (String × String)) (cs : List TraceSpan) :
    appendInner x (l ++ [TraceSpan.mk n s none md cs]) =
      l ++ [TraceSpan.mk n s none md (appendInner x cs)] := by
  induction l with
  | nil => simp [appendInner]
  | cons a rest ih =>
    cases rest with
    | nil => simp [appendInner]
    | cons b bs =>
      simp only [List.cons_append] at ih ⊢
      rw [appendInner_cons_cons, ih]

theorem open_view (fs : List SpanFrame) : ∀ (roots : List TraceSpan) (n : String)
    (now : Nat) (md : List (String × String)),
    topClosed roots = true → (∀ f ∈ fs, topClosed f.children = true) →
    roots ++ viewStack (fs ++ [⟨n, now, md, []⟩]) =
      appendInner (TraceSpan.mk n now none md []) (roots ++ viewStack fs) := by
  induction fs with
  | nil =>
    intro roots n now md hroots _
    simp [viewStack, appendInner_all_closed _ _ hroots]
  | cons f fs ih =>
    intro roots n now md hroots hfs
    simp only [List.cons_append, viewStack]
    rw [appendInner_concat_open,
      ← ih f.children n now md (hfs f (by simp)) (fun g hg => hfs g (by simp [hg]))]
    rfl

/-! ## C5: span nesting integrity -/

/-- C5: from a fresh enabled tracer, after any sequence of scoped `span`
acquisitions (arbitrarily nested, with bodies that may raise): the open-span
stack is empty again; every recorded span is closed with
`end_time ≥ start_time`; siblings at every level appear in the order they were
opened (strictly increasing start times); at any mid-request state a newly
opened span is appended as the last child of the innermost open span (or to
the root list when none is open); and a `span` whose body raises still closes,
leaving the open-span stack exactly as it was. -/
theorem tracer_span_nesting (p : Prog) (names : List (String × List (String × String)))
    (n : String) (md : List (String × String)) (b : Prog) :
    ((p.run (Tracer.init true) 0).1).activeSpans = [] ∧
    closedF ((p.run (Tracer.init true) 0).1).toSpans = true ∧
    wellTimedF ((p.run (Tracer.init true) 0).1).toSpans = true ∧
    openOrderedF ((p.run (Tracer.init true) 0).1).toSpans = true ∧
    (((openAll names ((p.run (Tracer.init true) 0).1, (p.run (Tracer.init true) 0).2.1)).1.openSpan
        n md (openAll names ((p.run (Tracer.init true) 0).1, (p.run (Tracer.init true) 0).2.1)).2).1.toSpans =
      appendInner
        (TraceSpan.mk n
          (openAll names ((p.run (Tracer.init true) 0).1, (p.run (Tracer.init true) 0).2.1)).2
          none md [])
        (openAll names ((p.run (Tracer.init true) 0).1, (p.run (Tracer.init true) 0).2.1)).1.toSpans) ∧
    ((Prog.span n md b).run (p.run (Tracer.init true) 0).1
        (p.run (Tracer.init true) 0).2.1).1.activeSpans.map SpanFrame.key =
      ((p.run (Tracer.init true) 0).1).activeSpans.map SpanFrame.key := by
  have hwf : ((p.run (Tracer.init true) 0).1).WF (p.run (Tracer.init true) 0).2.1 :=
    Prog.run_wf p (Tracer.init true) 0 (Tracer.init_wf true)
  have hkeys := Prog.run_key_map p (Tracer.init true) 0
  have hempty : ((p.run (Tracer.init true) 0).1).activeSpans = [] := by
    have h1 := hkeys.1
    simp only [Tracer.init, List.map_nil] at h1
    exact List.map_eq_nil_iff.mp h1
  have henabled : ((p.run (Tracer.init true) 0).1).enabled = true := by
    have h2 := hkeys.2
    simpa [Tracer.init] using h2
  have htos : ((p.run (Tracer.init true) 0).1).toSpans = ((p.run (Tracer.init true) 0).1).spans := by
    unfold Tracer.toSpans
    rw [hempty]
    simp [viewStack]
  obtain ⟨m, hchain, hstack⟩ := hwf
  obtain ⟨hcl, hwt, hoo, _⟩ := hchain.sound
  refine ⟨hempty, by rw [htos]; exact hcl, by rw [htos]; exact hwt, by rw [htos]; exact hoo,
    ?_, (Prog.run_key_map (Prog.span n md b) _ _).1⟩
  have hmidwf := openAll_wf names ((p.run (Tracer.init true) 0).1)
    ((p.run (Tracer.init true) 0).2.1) ⟨m, hchain, hstack⟩
  have hmidE : ((openAll names ((p.run (Tracer.init true) 0).1,
      (p.run (Tracer.init true) 0).2.1)).1).enabled = true := by
    rw [openAll_enabled, henabled]
  obtain ⟨m2, hchain2, hstack2⟩ := hmidwf
  have hroots := hchain2.topClosed
  have hframes := stackOK_frames_closed hstack2
  unfold Tracer.openSpan
  rw [if_neg (by simp [hmidE])]
  unfold Tracer.toSpans
  exact open_view _ _ n _ md hroots hframes

/-! ## C10: trace accumulation across requests -/

theorem viewStack_keys (fs : List SpanFrame) :
    (viewStack fs).map (fun sp => (sp.name, sp.startTime)) = (fs.map SpanFrame.key).take 1 := by
  cases fs <;> rfl

theorem rootKeysOf_eq (t : Tracer) :
    rootKeysOf t = t.spans.map (fun sp => (sp.name, sp.startTime)) ++
      (t.activeSpans.map SpanFrame.key).take 1 := by
  unfold rootKeysOf Tracer.toSpans
  rw [List.map_append, viewStack_keys]

theorem take1_dropLast {α : Type} (a b : α) (rest : List α) :
    ((a :: b :: rest).dropLast).take 1 = (a :: b :: rest).take 1 := by
  simp [List.dropLast]

theorem rootKeysOf_open (t : Tracer) (n : String) (md : List (String × String))
    (now : Nat) : rootKeysOf t <+: rootKeysOf (t.openSpan n md now).1 := by
  unfold Tracer.openSpan
  by_cases hE : t.enabled = true
  · rw [if_neg (by simp [hE])]
    rw [rootKeysOf_eq, rootKeysOf_eq]
    simp only [List.map_append]
    cases hact : t.activeSpans with
    | nil =>
      refine ⟨[(n, now)], ?_⟩
      simp [SpanFrame.key]
    | cons f fs =>
      refine ⟨[], ?_⟩
      simp
  · have hF : t.enabled = false := by revert hE; cases t.enabled <;> simp
    rw [if_pos (by simp [hF])]

theorem rootKeysOf_close (t : Tracer) (now : Nat) :
    rootKeysOf (t.closeSpan now).1 = rootKeysOf t := by
  unfold Tracer.closeSpan
  by_cases hE : t.enabled = true
  · rw [if_neg (by simp [hE])]
    cases hl : t.activeSpans.getLast? with
    | none => rfl
    | some f =>
      have hne : t.activeSpans ≠ [] := by
        intro h0; rw [h0] at hl; simp at hl
      have hf : t.activeSpans.getLast hne = f := by
        rw [List.getLast?_eq_getLast _ hne] at hl
        exact Option.some.inj hl
      have hact : t.activeSpans.dropLast ++ [f] = t.activeSpans := by
        rw [← hf]; exact List.dropLast_append_getLast hne
      cases hl2 : t.activeSpans.dropLast.getLast? with
      | none =>
        have hrest : t.activeSpans.dropLast = [] := by
          cases hdl : t.activeSpans.dropLast with
          | nil => rfl
          | cons a as =>
            rw [hdl] at hl2
            rw [List.getLast?_eq_getLast _ (by simp)] at hl2
            cases hl2
        have hone : t.activeSpans = [f] := by
          rw [← hact, hrest]; rfl
        rw [rootKeysOf_eq, rootKeysOf_eq, hone]
        simp [TraceSpan.name, TraceSpan.startTime, SpanFrame.key]
      | some g =>
        have hne2 : t.activeSpans.dropLast ≠ [] := by
          intro h0; rw [h0] at hl2; simp at hl2
        have hg : t.activeSpans.dropLast.getLast hne2 = g := by
          rw [List.getLast?_eq_getLast _ hne2] at hl2
          exact Option.some.inj hl2
        have hact2 : t.activeSpans.dropLast.dropLast ++ [g] = t.activeSpans.dropLast := by
          rw [← hg]; exact List.dropLast_append_getLast hne2
        rw [rootKeysOf_eq, rootKeysOf_eq]
        simp only [List.map_append]
        congr 1
        -- new stack keys: dropLast.dropLast ++ [g with extra child] — same head
        have hmapnew : (t.activeSpans.dropLast.dropLast ++
            [SpanFrame.mk g.name g.startTime g.metadata
              (g.children ++ [TraceSpan.mk f.name f.startTime (some now) f.metadata f.children])]).map
              SpanFrame.key = t.activeSpans.dropLast.map SpanFrame.key := by
          rw [← hact2]
          simp [SpanFrame.key]
        rw [← List.map_append, hmapnew]
        -- active = dropLast ++ [f] with dropLast nonempty: take 1 agrees
        cases hdl : t.activeSpans.dropLast with
        | nil => exact absurd hdl hne2
        | cons a as =>
          have hactive : t.activeSpans = a :: (as ++ [f]) := by
            rw [← hact, hdl]; rfl
          rw [hactive]
          simp
  · have hF : t.enabled = false := by revert hE; cases t.enabled <;> simp
    rw [if_pos (by simp [hF])]

theorem summarizeSpan_eq (n : String) (s : Nat) (e? : Option Nat)
    (md : List (String × String)) (cs : List TraceSpan) :
    summarizeSpan (TraceSpan.mk n s e? md cs) =
      TraceView.mk n
        (match e? with
         | some e => if e = 0 then none else some ((e : Int) - (s : Int))
         | none => none)
        md (cs.attach.map (fun c => summarizeSpan c.1)) := by
  rw [summarizeSpan.eq_def]

theorem summarizeSpan_name (sp : TraceSpan) : (summarizeSpan sp).name = sp.name := by
  cases sp with
  | mk n s e md cs =>
    rw [summarizeSpan_eq]
    rfl

theorem summarizeSpan_mdata (sp : TraceSpan) : (summarizeSpan sp).metadata = sp.mdata := by
  cases sp with
  | mk n s e md cs =>
    rw [summarizeSpan_eq]
    rfl

/-- C10: no tracer operation removes recorded spans — opening a span only
extends the root list (the old root identities are a prefix of the new ones)
and closing a span preserves the root identities exactly
(`get_trace_summary` is a pure read by construction). Consequently, in two
successive `analyze` calls sharing the tracer, the trace embedded in the
second response still contains the first request's root span
(`coordinator.analyze` tagged with the first query) ahead of the second's. -/
theorem tracer_trace_accumulation (t : Tracer) (now : Nat) (n : String)
    (md : List (String × String)) :
    (rootKeysOf t <+: rootKeysOf (t.openSpan n md now).1) ∧
    rootKeysOf (t.closeSpan now).1 = rootKeysOf t ∧
    (extractTrace c10Run2.1).spans.map TraceView.name =
      ["coordinator.analyze", "coordinator.analyze"] ∧
    (extractTrace c10Run2.1).spans.map TraceView.metadata =
      [[("query", "first question")], [("query", "second question")]] ∧
    (extractTrace c10Run2.1).totalSpans = 2 ∧
    (extractTrace c10Run1.1).spans.map TraceView.name = ["coordinator.analyze"] ∧
    (extractTrace c10Run1.1).spans.map TraceView.metadata = [[("query", "first question")]] := by
  have hname : ∀ (l : List TraceSpan),
      (l.map summarizeSpan).map TraceView.name = l.map TraceSpan.name := by
    intro l
    rw [List.map_map]
    exact List.map_congr_left (fun a _ => summarizeSpan_name a)
  have hmd : ∀ (l : List TraceSpan),
      (l.map summarizeSpan).map TraceView.metadata = l.map TraceSpan.mdata := by
    intro l
    rw [List.map_map]
    exact List.map_congr_left (fun a _ => summarizeSpan_mdata a)
  have e2 : (extractTrace c10Run2.1).spans =
      ([TraceSpan.mk "coordinator.analyze" 2 (some 12) [("query", "first question")] [],
        TraceSpan.mk "coordinator.analyze" 13 none [("query", "second question")] []]).map
        summarizeSpan := rfl
  have e1 : (extractTrace c10Run1.1).spans =
      ([TraceSpan.mk "coordinator.analyze" 2 none [("query", "first question")] []]).map
        summarizeSpan := rfl
  refine ⟨rootKeysOf_open t n md now, rootKeysOf_close t now, ?_, ?_, rfl, ?_, ?_⟩
  · rw [e2, hname]; rfl
  · rw [e2, hmd]; rfl
  · rw [e1, hname]; rfl
  · rw [e1, hmd]; rfl

/-! ## C1: partial-failure continuation -/

/-- C1 (counterexample): in the claim's own scenario — `query = "generate a
report"`, an analysis collaborator that *throws*, a report collaborator
returning `{success: true, report: {filepath: "x.md"}}` — the exception
propagates to `analyze`'s outer `except`, which aborts the request: the
response is `{success: false, error: "boom"}` with no `report` section, not
the claimed `success: true` with `report.filepath = "x.md"`. -/
theorem coordinator_degraded_continuation_counterexample :
    ((CoordinatorAgent.analyze c1Collab (CoordinatorAgent.init "u")
        "generate a report" none).1).success = false ∧
    ((CoordinatorAgent.analyze c1Collab (CoordinatorAgent.init "u")
        "generate a report" none).1).report = none ∧
    ((CoordinatorAgent.analyze c1Collab (CoordinatorAgent.init "u")
        "generate a report" none).1).error = some "boom" := by
  refine ⟨rfl, rfl, rfl⟩

/-- C1 (amended): the partial-failure continuation holds when the analysis
collaborator fails by *returning* `{success: false, ...}` (the protocol
`DataAnalystAgent.analyze_data` actually uses — it catches internally) rather
than raising: for `query = "generate a report"` and a report collaborator
returning `{success: true, report: {filepath, format}}`, the compiled
response has `success: true`, no `analysis` key, and the report section from
the report collaborator, whatever the coordinator state. -/
theorem coordinator_degraded_continuation (st : AgentState)
    (ins stats fp fmt : Option String) :
    ((CoordinatorAgent.analyze ⟨false, none, .ok ⟨false, ins, stats⟩,
        .ok ⟨true, some ⟨fp, fmt⟩⟩, ⟨false, false⟩⟩ st "generate a report" none).1).success = true ∧
    ((CoordinatorAgent.analyze ⟨false, none, .ok ⟨false, ins, stats⟩,
        .ok ⟨true, some ⟨fp, fmt⟩⟩, ⟨false, false⟩⟩ st "generate a report" none).1).analysis = none ∧
    ((CoordinatorAgent.analyze ⟨false, none, .ok ⟨false, ins, stats⟩,
        .ok ⟨true, some ⟨fp, fmt⟩⟩, ⟨false, false⟩⟩ st "generate a report" none).1).report =
      some ⟨fp, fmt⟩ ∧
    ((CoordinatorAgent.analyze ⟨false, none, .ok ⟨false, ins, stats⟩,
        .ok ⟨true, some ⟨fp, fmt⟩⟩, ⟨false, false⟩⟩ st "generate a report" none).1).error = none := by
  have hd : strContains (lowerStr "generate a report") "data" = false := rfl
  have hr : strContains (lowerStr "generate a report") "report" = true := rfl
  simp only [CoordinatorAgent.analyze, analyzeTry, analyzeSteps, analysisStep, reportStep,
    compileResponse, planWorkflow, truthyStr, failResponse, hd, hr,
    Option.isSome_none, Bool.false_or, Bool.or_false, if_false, if_true,
    Bool.false_and, Bool.and_false]
  simp

/-! ## C2: per-request metrics discipline -/

theorem analysisStep_metrics (c : Collab) (s : AgentState) (q : String) (wf : Workflow) :
    (analysisStep c s q wf).2.metrics = s.metrics := by
  unfold analysisStep MemoryBank.storeInsight MemoryBank.store
  repeat' split
  all_goals rfl

theorem reportStep_metrics (c : Collab) (s : AgentState) (wf : Workflow) :
    (reportStep c s wf).2.metrics = s.metrics := by
  unfold reportStep
  repeat' split
  all_goals rfl

theorem compileResponse_metrics (s : AgentState) (q : String)
    (a : Option AnalysisResult) (r : Option ReportResult) (wf : Workflow) :
    (compileResponse s q a r wf).2.metrics = s.metrics := by
  unfold compileResponse
  repeat' split
  all_goals rfl

theorem compileResponse_success (s : AgentState) (q : String)
    (a : Option AnalysisResult) (r : Option ReportResult) (wf : Workflow) :
    (compileResponse s q a r wf).1.success = true := by
  unfold compileResponse
  repeat' split
  all_goals rfl

theorem counterVal_counters_eq {m1 m2 : MetricsCollector} (h : m1.counters = m2.counters)
    (name : String) : counterVal m1 name = counterVal m2 name := by
  unfold counterVal
  rw [h]

theorem timerCount_timers_eq {m1 m2 : MetricsCollector} (h : m1.timers = m2.timers)
    (name : String) : timerCount m1 name = timerCount m2 name := by
  unfold timerCount
  rw [h]

theorem analyzeSteps_metrics (c : Collab) (s2 : AgentState) (q : String) (wf : Workflow)
    (startTime : Nat) (h2 : s2.metrics.enabled = true) :
    ((∃ r, (analyzeSteps c s2 q wf startTime).1 = .ret r ∧ r.success = true) ∧
      counterVal (analyzeSteps c s2 q wf startTime).2.metrics "coordinator.analysis_success" =
        counterVal s2.metrics "coordinator.analysis_success" + 1 ∧
      counterVal (analyzeSteps c s2 q wf startTime).2.metrics "coordinator.analysis_errors" =
        counterVal s2.metrics "coordinator.analysis_errors" ∧
      counterVal (analyzeSteps c s2 q wf startTime).2.metrics "coordinator.analysis_requests" =
        counterVal s2.metrics "coordinator.analysis_requests" ∧
      timerCount (analyzeSteps c s2 q wf startTime).2.metrics "coordinator.analysis_duration" =
        timerCount s2.metrics "coordinator.analysis_duration" + 1) ∨
    ((∃ msg, (analyzeSteps c s2 q wf startTime).1 = .raised msg) ∧
      (analyzeSteps c s2 q wf startTime).2.metrics = s2.metrics) := by
  unfold analyzeSteps
  rcases ha : analysisStep c s2 q wf with ⟨fa, s3⟩
  have h3 : s3.metrics = s2.metrics := by
    have := analysisStep_metrics c s2 q wf
    rw [ha] at this
    exact this
  cases fa with
  | error msg => exact Or.inr ⟨⟨msg, rfl⟩, h3⟩
  | ok analysisResults =>
    simp only []
    rcases hr : reportStep c s3 wf with ⟨fr, s4⟩
    have h4 : s4.metrics = s2.metrics := by
      have := reportStep_metrics c s3 wf
      rw [hr] at this
      rw [this, h3]
    cases fr with
    | error msg => exact Or.inr ⟨⟨msg, rfl⟩, h4⟩
    | ok reportResults =>
      simp only []
      rcases hc : compileResponse s4 q analysisResults reportResults wf with ⟨resp, s5⟩
      have h5 : s5.metrics = s2.metrics := by
        have := compileResponse_metrics s4 q analysisResults reportResults wf
        rw [hc] at this
        rw [this, h4]
      have hsucc : resp.success = true := by
        have := compileResponse_success s4 q analysisResults reportResults wf
        rw [hc] at this
        exact this
      left
      have hen : s5.metrics.enabled = true := by rw [h5]; exact h2
      refine ⟨⟨resp, rfl, hsucc⟩, ?_, ?_, ?_, ?_⟩
      · show counterVal ((s5.metrics.recordTiming "coordinator.analysis_duration" _ []
            _).1.increment "coordinator.analysis_success" 1 [] _).1 _ = _
        rw [counterVal_increment_self _ _ _ _ _ (by rw [enabled_recordTiming]; exact hen)]
        rw [counterVal_counters_eq (counters_recordTiming _ _ _ _ _), h5]
      · show counterVal ((s5.metrics.recordTiming "coordinator.analysis_duration" _ []
            _).1.increment "coordinator.analysis_success" 1 [] _).1 _ = _
        rw [counterVal_increment_other _ _ _ _ _ _ (by decide)]
        rw [counterVal_counters_eq (counters_recordTiming _ _ _ _ _), h5]
      · show counterVal ((s5.metrics.recordTiming "coordinator.analysis_duration" _ []
            _).1.increment "coordinator.analysis_success" 1 [] _).1 _ = _
        rw [counterVal_increment_other _ _ _ _ _ _ (by decide)]
        rw [counterVal_counters_eq (counters_recordTiming _ _ _ _ _), h5]
      · show timerCount ((s5.metrics.recordTiming "coordinator.analysis_duration" _ []
            _).1.increment "coordinator.analysis_success" 1 [] _).1 _ = _
        rw [timerCount_timers_eq (timers_increment _ _ _ _ _)]
        rw [timerCount_recordTiming_self _ _ _ _ _ hen]
        rw [timerCount_timers_eq (rfl : s5.metrics.timers = s5.metrics.timers)]
        rw [h5]

theorem analyzeTry_dispatch (c : Collab) (st : AgentState) (q : String)
    (df : Option String) (startTime : Nat) :
    ((analyzeTry c st q df startTime).1 = .ret (failResponse "Failed to load data") ∧
      (analyzeTry c st q df startTime).2.metrics = st.metrics) ∨
    (∃ s2, analyzeTry c st q df startTime =
        analyzeSteps c s2 q (planWorkflow c q df) startTime ∧ s2.metrics = st.metrics) := by
  unfold analyzeTry
  by_cases hload : (truthyStr df || (planWorkflow c q df).needsData) = true
  · rw [if_pos hload]
    simp only []
    split
    · exact Or.inl ⟨rfl, rfl⟩
    · exact Or.inr ⟨_, rfl, rfl⟩
  · rw [if_neg hload]
    exact Or.inr ⟨_, rfl, rfl⟩

theorem analyzeTry_metrics (c : Collab) (st : AgentState) (q : String)
    (df : Option String) (startTime : Nat) (h : st.metrics.enabled = true) :
    ((∃ r, (analyzeTry c st q df startTime).1 = .ret r ∧ r.success = true) ∧
      counterVal (analyzeTry c st q df startTime).2.metrics "coordinator.analysis_success" =
        counterVal st.metrics "coordinator.analysis_success" + 1 ∧
      counterVal (analyzeTry c st q df startTime).2.metrics "coordinator.analysis_errors" =
        counterVal st.metrics "coordinator.analysis_errors" ∧
      counterVal (analyzeTry c st q df startTime).2.metrics "coordinator.analysis_requests" =
        counterVal st.metrics "coordinator.analysis_requests" ∧
      timerCount (analyzeTry c st q df startTime).2.metrics "coordinator.analysis_duration" =
        timerCount st.metrics "coordinator.analysis_duration" + 1) ∨
    ((analyzeTry c st q df startTime).1 = .ret (failResponse "Failed to load data") ∧
      (analyzeTry c st q df startTime).2.metrics = st.metrics) ∨
    ((∃ msg, (analyzeTry c st q df startTime).1 = .raised msg) ∧
      (analyzeTry c st q df startTime).2.metrics = st.metrics) := by
  rcases analyzeTry_dispatch c st q df startTime with ⟨h1, h2⟩ | ⟨s2, heq, hm⟩
  · exact Or.inr (Or.inl ⟨h1, h2⟩)
  · have h2' : s2.metrics.enabled = true := by rw [hm]; exact h
    have hsteps := analyzeSteps_metrics c s2 q (planWorkflow c q df) startTime h2'
    rw [← heq] at hsteps
    rcases hsteps with ⟨hs, c1, c2, c3, c4⟩ | ⟨hr, hmm⟩
    · exact Or.inl ⟨hs, by rw [c1, hm], by rw [c2, hm], by rw [c3, hm], by rw [c4, hm]⟩
    · exact Or.inr (Or.inr ⟨hr, by rw [hmm, hm]⟩)

/-- C2 (counterexample): on the data-load-failure early return the claim's
exit discipline is violated: the request counter was incremented but neither
the success counter nor the error counter is, and no duration sample is
recorded. The concrete run uses `data_file = "f.csv"` with a loader that
fails. -/
theorem coordinator_metrics_counterexample :
    counterVal (CoordinatorAgent.analyze c2Collab (CoordinatorAgent.init "u")
        "q" (some "f.csv")).2.metrics "coordinator.analysis_requests" = 1 ∧
    counterVal (CoordinatorAgent.analyze c2Collab (CoordinatorAgent.init "u")
        "q" (some "f.csv")).2.metrics "coordinator.analysis_success" = 0 ∧
    counterVal (CoordinatorAgent.analyze c2Collab (CoordinatorAgent.init "u")
        "q" (some "f.csv")).2.metrics "coordinator.analysis_errors" = 0 ∧
    timerCount (CoordinatorAgent.analyze c2Collab (CoordinatorAgent.init "u")
        "q" (some "f.csv")).2.metrics "coordinator.analysis_duration" = 0 ∧
    (CoordinatorAgent.analyze c2Collab (CoordinatorAgent.init "u")
        "q" (some "f.csv")).1 = failResponse "Failed to load data" := by
  refine ⟨by decide, by decide, by decide, by decide, rfl⟩

/-- C2 (amended): every `analyze` call increments the request counter exactly
once at entry; at exit, on the success path the success counter is
incremented once and the wall-clock duration recorded exactly once; on a
caught exception the error counter is incremented once but no duration is
recorded; and on the data-load-failure early return neither counter is
incremented and no duration is recorded. -/
theorem coordinator_metrics_discipline (c : Collab) (st : AgentState) (q : String)
    (df : Option String) (h : st.metrics.enabled = true) :
    counterVal (CoordinatorAgent.analyze c st q df).2.metrics "coordinator.analysis_requests" =
      counterVal st.metrics "coordinator.analysis_requests" + 1 ∧
    (((CoordinatorAgent.analyze c st q df).1.success = true ∧
      counterVal (CoordinatorAgent.analyze c st q df).2.metrics "coordinator.analysis_success" =
        counterVal st.metrics "coordinator.analysis_success" + 1 ∧
      counterVal (CoordinatorAgent.analyze c st q df).2.metrics "coordinator.analysis_errors" =
        counterVal st.metrics "coordinator.analysis_errors" ∧
      timerCount (CoordinatorAgent.analyze c st q df).2.metrics "coordinator.analysis_duration" =
        timerCount st.metrics "coordinator.analysis_duration" + 1) ∨
    ((CoordinatorAgent.analyze c st q df).1 = failResponse "Failed to load data" ∧
      counterVal (CoordinatorAgent.analyze c st q df).2.metrics "coordinator.analysis_success" =
        counterVal st.metrics "coordinator.analysis_success" ∧
      counterVal (CoordinatorAgent.analyze c st q df).2.metrics "coordinator.analysis_errors" =
        counterVal st.metrics "coordinator.analysis_errors" ∧
      timerCount (CoordinatorAgent.analyze c st q df).2.metrics "coordinator.analysis_duration" =
        timerCount st.metrics "coordinator.analysis_duration") ∨
    ((∃ msg, (CoordinatorAgent.analyze c st q df).1 = failResponse msg) ∧
      counterVal (CoordinatorAgent.analyze c st q df).2.metrics "coordinator.analysis_errors" =
        counterVal st.metrics "coordinator.analysis_errors" + 1 ∧
      counterVal (CoordinatorAgent.analyze c st q df).2.metrics "coordinator.analysis_success" =
        counterVal st.metrics "coordinator.analysis_success" ∧
      timerCount (CoordinatorAgent.analyze c st q df).2.metrics "coordinator.analysis_duration" =
        timerCount st.metrics "coordinator.analysis_duration")) := by
  unfold CoordinatorAgent.analyze
  simp only []
  set MC := st.metrics.increment "coordinator.analysis_requests" 1 []
    (st.tracer.openSpan "coordinator.analyze" [("query", q)] st.now).2 with hMC
  have hMCen : MC.1.enabled = true := by
    rw [hMC, enabled_increment]
    exact h
  have hMCreq : counterVal MC.1 "coordinator.analysis_requests" =
      counterVal st.metrics "coordinator.analysis_requests" + 1 := by
    rw [hMC]
    exact counterVal_increment_self _ _ _ _ _ h
  have hMCsucc : counterVal MC.1 "coordinator.analysis_success" =
      counterVal st.metrics "coordinator.analysis_success" := by
    rw [hMC]
    exact counterVal_increment_other _ _ _ _ _ _ (by decide)
  have hMCerr : counterVal MC.1 "coordinator.analysis_errors" =
      counterVal st.metrics "coordinator.analysis_errors" := by
    rw [hMC]
    exact counterVal_increment_other _ _ _ _ _ _ (by decide)
  have hMCtim : timerCount MC.1 "coordinator.analysis_duration" =
      timerCount st.metrics "coordinator.analysis_duration" := by
    rw [hMC]
    exact timerCount_timers_eq (timers_increment _ _ _ _ _) _
  set S3 : AgentState := ⟨(st.tracer.openSpan "coordinator.analyze" [("query", q)] st.now).1,
    MC.1, st.sessionMgr, st.sessionId, st.bank, MC.2 + 1⟩ with hS3
  have h3way := analyzeTry_metrics c S3 q df MC.2 hMCen
  rcases h3way with ⟨⟨r, hout, hrsucc⟩, c1, c2, c3, c4⟩ | ⟨hout, hsame⟩ | ⟨⟨msg, hout⟩, hsame⟩
  · rw [hout]
    simp only []
    refine ⟨?_, Or.inl ⟨hrsucc, ?_, ?_, ?_⟩⟩
    · show counterVal (analyzeTry c S3 q df MC.2).2.metrics _ = _
      rw [c3]
      exact hMCreq
    · show counterVal (analyzeTry c S3 q df MC.2).2.metrics _ = _
      rw [c1]
      rw [hMCsucc]
    · show counterVal (analyzeTry c S3 q df MC.2).2.metrics _ = _
      rw [c2]
      exact hMCerr
    · show timerCount (analyzeTry c S3 q df MC.2).2.metrics _ = _
      rw [c4]
      rw [hMCtim]
  · rw [hout]
    simp only []
    refine ⟨?_, Or.inr (Or.inl ⟨by trivial, ?_, ?_, ?_⟩)⟩
    · show counterVal (analyzeTry c S3 q df MC.2).2.metrics _ = _
      rw [counterVal_counters_eq (by rw [hsame]) _]
      exact hMCreq
    · show counterVal (analyzeTry c S3 q df MC.2).2.metrics _ = _
      rw [counterVal_counters_eq (by rw [hsame]) _]
      exact hMCsucc
    · show counterVal (analyzeTry c S3 q df MC.2).2.metrics _ = _
      rw [counterVal_counters_eq (by rw [hsame]) _]
      exact hMCerr
    · show timerCount (analyzeTry c S3 q df MC.2).2.metrics _ = _
      rw [timerCount_timers_eq (by rw [hsame]) _]
      exact hMCtim
  · rw [hout]
    simp only []
    have hen4 : (analyzeTry c S3 q df MC.2).2.metrics.enabled = true := by
      rw [hsame]
      exact hMCen
    refine ⟨?_, Or.inr (Or.inr ⟨⟨msg, by trivial⟩, ?_, ?_, ?_⟩)⟩
    · show counterVal ((analyzeTry c S3 q df MC.2).2.metrics.increment
          "coordinator.analysis_errors" 1 [] _).1 _ = _
      rw [counterVal_increment_other _ _ _ _ _ _ (by decide)]
      rw [counterVal_counters_eq (by rw [hsame]) _]
      exact hMCreq
    · show counterVal ((analyzeTry c S3 q df MC.2).2.metrics.increment
          "coordinator.analysis_errors" 1 [] _).1 _ = _
      rw [counterVal_increment_self _ _ _ _ _ hen4]
      rw [counterVal_counters_eq (by rw [hsame]) _]
      exact congrArg (· + 1) hMCerr
    · show counterVal ((analyzeTry c S3 q df MC.2).2.metrics.increment
          "coordinator.analysis_errors" 1 [] _).1 _ = _
      rw [counterVal_increment_other _ _ _ _ _ _ (by decide)]
      rw [counterVal_counters_eq (by rw [hsame]) _]
      exact hMCsucc
    · show timerCount ((analyzeTry c S3 q df MC.2).2.metrics.increment
          "coordinator.analysis_errors" 1 [] _).1 _ = _
      rw [timerCount_timers_eq (timers_increment _ _ _ _ _) _]
      rw [timerCount_timers_eq (by rw [hsame]) _]
      exact hMCtim

/-- C2 witness: the amended discipline applied to a concrete request on a
fresh coordinator (no data needed, both collaborators succeed). -/
theorem coordinator_metrics_discipline_witness :
    ((CoordinatorAgent.init "u").metrics.enabled = true) ∧
    (counterVal (CoordinatorAgent.analyze okCollab (CoordinatorAgent.init "u")
        "q" none).2.metrics "coordinator.analysis_requests" =
      counterVal (CoordinatorAgent.init "u").metrics "coordinator.analysis_requests" + 1 ∧
    (((CoordinatorAgent.analyze okCollab (CoordinatorAgent.init "u") "q" none).1.success = true ∧
      counterVal (CoordinatorAgent.analyze okCollab (CoordinatorAgent.init "u")
          "q" none).2.metrics "coordinator.analysis_success" =
        counterVal (CoordinatorAgent.init "u").metrics "coordinator.analysis_success" + 1 ∧
      counterVal (CoordinatorAgent.analyze okCollab (CoordinatorAgent.init "u")
          "q" none).2.metrics "coordinator.analysis_errors" =
        counterVal (CoordinatorAgent.init "u").metrics "coordinator.analysis_errors" ∧
      timerCount (CoordinatorAgent.analyze okCollab (CoordinatorAgent.init "u")
          "q" none).2.metrics "coordinator.analysis_duration" =
        timerCount (CoordinatorAgent.init "u").metrics "coordinator.analysis_duration" + 1) ∨
    ((CoordinatorAgent.analyze okCollab (CoordinatorAgent.init "u") "q" none).1 =
        failResponse "Failed to load data" ∧
      counterVal (CoordinatorAgent.analyze okCollab (CoordinatorAgent.init "u")
          "q" none).2.metrics "coordinator.analysis_success" =
        counterVal (CoordinatorAgent.init "u").metrics "coordinator.analysis_success" ∧
      counterVal (CoordinatorAgent.analyze okCollab (CoordinatorAgent.init "u")
          "q" none).2.metrics "coordinator.analysis_errors" =
        counterVal (CoordinatorAgent.init "u").metrics "coordinator.analysis_errors" ∧
      timerCount (CoordinatorAgent.analyze okCollab (CoordinatorAgent.init "u")
          "q" none).2.metrics "coordinator.analysis_duration" =
        timerCount (CoordinatorAgent.init "u").metrics "coordinator.analysis_duration") ∨
    ((∃ msg, (CoordinatorAgent.analyze okCollab (CoordinatorAgent.init "u") "q" none).1 =
        failResponse msg) ∧
      counterVal (CoordinatorAgent.analyze okCollab (CoordinatorAgent.init "u")
          "q" none).2.metrics "coordinator.analysis_errors" =
        counterVal (CoordinatorAgent.init "u").metrics "coordinator.analysis_errors" + 1 ∧
      counterVal (CoordinatorAgent.analyze okCollab (CoordinatorAgent.init "u")
          "q" none).2.metrics "coordinator.analysis_success" =
        counterVal (CoordinatorAgent.init "u").metrics "coordinator.analysis_success" ∧
      timerCount (CoordinatorAgent.analyze okCollab (CoordinatorAgent.init "u")
          "q" none).2.metrics "coordinator.analysis_duration" =
        timerCount (CoordinatorAgent.init "u").metrics "coordinator.analysis_duration"))) :=
  ⟨rfl, coordinator_metrics_discipline okCollab (CoordinatorAgent.init "u") "q" none rfl⟩

end Analytics
